import Mathlib

/-!
The file plugins/wifi.c: scan reconciliation and connection state of a wireless device.

A shallow embedding of `plugins/wifi.c`.  Elements (`struct connman_element`) live in a
heap, a list addressed by position; an element pointer is its position and
`connman_element_create` allocates at the end of the heap, so a new object is distinct
from every older one.  The driver data of the device (`struct wifi_data`) is kept next to
the heap.  Calls into the element framework, GLib and the supplicant are appended to a
log in program order.
-/

namespace Wifi

/-! ## Data model -/

/-- The content of a C string, one number per byte, the terminating NUL left out. -/
abbrev Bytes := List Nat

/-- The definition `CLEANUP_PENDING_TIMEOUT`, in seconds (line 44). -/
def CLEANUP_PENDING_TIMEOUT : Nat := 8

/-- The errno value `EIO`. -/
def EIO : Int := 5

/-- The errno value `EBUSY`. -/
def EBUSY : Int := 16

/-- The errno value `ENOMEM`. -/
def ENOMEM : Int := 12

/-- Modelled from the spec: `enum supplicant_state` is declared in `supplicant.h`, which is
not part of the sources at hand.  The notifications carry one of completed, disconnected,
inactive, or any other state; `STATE_OTHER` stands for each of the remaining
enumerators. -/
inductive supplicant_state where
  | STATE_COMPLETED
  | STATE_DISCONNECTED
  | STATE_INACTIVE
  | STATE_OTHER (code : Nat)
deriving DecidableEq, Repr

/-- The element types that `wifi.c` assigns, and the type of a blank element. -/
inductive element_type where
  | UNKNOWN
  | DEVICE
  | NETWORK
  | DHCP
deriving DecidableEq, Repr

/-- The element subtypes that `wifi.c` assigns, and the subtype of a blank element. -/
inductive element_subtype where
  | UNKNOWN
  | WIFI
deriving DecidableEq, Repr

/-- A reference to an element: the wireless device itself, or an object of the heap. -/
inductive element_ref where
  | device
  | object (p : Nat)
deriving DecidableEq, Repr

/-- The fields of `struct connman_element` that `wifi.c` reads or writes, with the static
properties "Name", "WiFi.SSID" and "WiFi.Strength" as optional fields. -/
structure connman_element where
  name : Option Bytes
  type : element_type
  index : Int
  parent : Option element_ref
  available : Bool
  security : Option String
  passphrase : Option String
  Name : Option Bytes
  SSID : Option Bytes
  Strength : Option Nat
  subtype : element_subtype := element_subtype.UNKNOWN
  devname : Option Bytes := none
deriving DecidableEq, Repr

/-- The driver data `struct wifi_data` (lines 46-52).  A list of element pointers stands
for a `GSList`, `timer = 0` for "no timer", `identifier = none` for `NULL`. -/
structure wifi_data where
  current : List Nat
  pending : List Nat
  timer : Nat
  identifier : Option Bytes
  connected : Bool
deriving DecidableEq, Repr

/-- Modelled from the spec: `struct supplicant_network` is declared in `supplicant.h`, which
is not part of the sources at hand.  A scan result carries an identifier (possibly `NULL`),
the SSID bytes, three security flags and a quality. -/
structure supplicant_network where
  identifier : Option Bytes
  ssid : Bytes
  has_wep : Bool
  has_wpa : Bool
  has_rsn : Bool
  quality : Int
deriving DecidableEq, Repr

/-- One call that leaves `wifi.c`: into the element framework, GLib or the supplicant. -/
inductive Call where
  | element_create (p : Nat)
  | element_register (p : Nat) (parent : element_ref)
  | element_register_root (p : Nat)
  | element_unregister (p : Nat)
  | element_unref (p : Nat)
  | element_unregister_children (r : element_ref)
  | timeout_add_seconds (interval : Nat) (id : Nat)
  | source_remove (id : Nat)
  | supplicant_connect (p : Nat) (ssid : Bytes) (security : Option String)
      (passphrase : Option String)
  | supplicant_disconnect (r : element_ref)
  | supplicant_stop (r : element_ref)
deriving DecidableEq, Repr

/-- The device element with what surrounds it: `index` is `parent->index`, `data` is what
`connman_element_get_data(parent)` returns (`none` for `NULL`), `heap` holds the elements
created so far, `sources` the timeout sources of the GLib main loop that are outstanding
and will call `cleanup_pending`, `last_source` the last source id handed out, and `log`
the calls made so far. -/
structure World where
  index : Int
  data : Option wifi_data
  heap : List connman_element
  sources : List Nat
  last_source : Nat
  log : List Call
deriving DecidableEq, Repr

/-! ## The element framework and GLib, as far as `wifi.c` uses them -/

/-- Modelled from the spec: `connman_element_create` lives in the element framework, which is
not part of the sources at hand.  It returns a new element, blank but for its name. -/
def blank_element (name : Option Bytes) : connman_element :=
  { name := name, type := element_type.UNKNOWN, index := -1, parent := none,
    available := false, security := none, passphrase := none,
    Name := none, SSID := none, Strength := none }

/-- Modelled from the spec: `connman_element_create(name)` allocates a new element; its
pointer is the next free position of the heap. -/
def connman_element_create (name : Option Bytes) (w : World) : Nat × World :=
  (w.heap.length,
    { w with heap := w.heap ++ [blank_element name],
             log := w.log ++ [Call.element_create w.heap.length] })

/-- Apply `f` to the element at position `p`; a position outside the list changes nothing. -/
def update_at (f : connman_element → connman_element) :
    List connman_element → Nat → List connman_element
  | [], _ => []
  | e :: es, 0 => f e :: es
  | e :: es, p + 1 => e :: update_at f es p

/-- A write through an element pointer: `element->field = value`. -/
def set_element (p : Nat) (f : connman_element → connman_element) (w : World) : World :=
  { w with heap := update_at f w.heap p }

/-- Modelled from the spec: `connman_element_register(element, parent)` puts the element
under its parent in the element framework. -/
def connman_element_register (p : Nat) (parent : element_ref) (w : World) : World :=
  { w with heap := update_at (fun e => { e with parent := some parent }) w.heap p,
           log := w.log ++ [Call.element_register p parent] }

/-- Modelled from the spec: `connman_element_unregister(element)` takes the element out of
the element framework. -/
def connman_element_unregister (p : Nat) (w : World) : World :=
  { w with log := w.log ++ [Call.element_unregister p] }

/-- Modelled from the spec: `connman_element_unref(element)` releases one reference. -/
def connman_element_unref (p : Nat) (w : World) : World :=
  { w with log := w.log ++ [Call.element_unref p] }

/-- Modelled from the spec: `connman_element_match_static_property(element, "Name",
&identifier)` is TRUE when the element has the static string property "Name" and its value
equals the identifier. -/
def match_Name (heap : List connman_element) (identifier : Bytes) (element : Nat) : Bool :=
  match heap[element]? with
  | none => false
  | some e => decide (e.Name = some identifier)

/-- Modelled from the spec: `g_timeout_add_seconds(interval, cleanup_pending, data)` adds a
timeout source to the main loop and returns its id, which is greater than 0. -/
def g_timeout_add_seconds (interval : Nat) (w : World) : Nat × World :=
  (w.last_source + 1,
    { w with sources := w.sources ++ [w.last_source + 1],
             last_source := w.last_source + 1,
             log := w.log ++ [Call.timeout_add_seconds interval (w.last_source + 1)] })

/-- Modelled from the spec: `g_source_remove(id)` takes the source out of the main loop. -/
def g_source_remove (id : Nat) (w : World) : World :=
  { w with sources := w.sources.erase id, log := w.log ++ [Call.source_remove id] }

/-- The macro `g_ascii_isprint`: the printable ASCII characters are 0x20 to 0x7e. -/
def g_ascii_isprint (c : Nat) : Bool := decide (32 ≤ c ∧ c ≤ 126)

/-- The function `g_ascii_tolower`: 'A'..'Z' go to 'a'..'z', every other byte stays. -/
def g_ascii_tolower (c : Nat) : Nat := if 65 ≤ c ∧ c ≤ 90 then c + 32 else c

/-! ## `wifi.c` -/

/-- The lookup `find_current_element` (lines 131-145): the first element of `current` whose
static property "Name" matches. -/
def find_current_element (heap : List connman_element) (data : wifi_data)
    (identifier : Bytes) : Option Nat :=
  data.current.find? (match_Name heap identifier)

/-- The lookup `find_pending_element` (lines 147-161): the first element of `pending` whose
static property "Name" matches. -/
def find_pending_element (heap : List connman_element) (data : wifi_data)
    (identifier : Bytes) : Option Nat :=
  data.pending.find? (match_Name heap identifier)

/-- The callback `state_change` (lines 163-194). -/
def state_change (state : supplicant_state) (w : World) : World :=
  match w.data with
  | none => w
  | some data =>
    match data.identifier with
    | none => w
    | some identifier =>
      match find_current_element w.heap data identifier with
      | none => w
      | some element =>
        if state = supplicant_state.STATE_COMPLETED then
          let w1 := { w with data := some { data with connected := true } }
          let (dhcp, w2) := connman_element_create none w1
          let w3 := set_element dhcp (fun e => { e with type := element_type.DHCP }) w2
          let element_index := match w3.heap[element]? with
            | some e => e.index
            | none => 0
          let w4 := set_element dhcp (fun e => { e with index := element_index }) w3
          connman_element_register dhcp (element_ref.object element) w4
        else if state = supplicant_state.STATE_DISCONNECTED
            ∨ state = supplicant_state.STATE_INACTIVE then
          { w with data := some { data with connected := false } }
        else w

/-- The loop of `cleanup_pending` (lines 203-210): unregister and unref each element. -/
def cleanup_pending_loop : List Nat → World → World
  | [], w => w
  | element :: list, w =>
    cleanup_pending_loop list (connman_element_unref element (connman_element_unregister element w))

/-- The timer callback `cleanup_pending` (lines 196-218); `user_data` is the driver data of
the device, and `none` is the dereference of a `NULL` pointer. -/
def cleanup_pending (w : World) : Option (Bool × World) :=
  match w.data with
  | none => none
  | some data =>
    let w1 := cleanup_pending_loop data.pending w
    some (false, { w1 with data := some { data with pending := [], timer := 0 } })

/-- The callback `clear_results` (lines 220-234); `none` is the dereference of a `NULL`
pointer. -/
def clear_results (w : World) : Option World :=
  match w.data with
  | none => none
  | some data =>
    let data1 := { data with pending := data.current, current := [] }
    if data1.timer = 0 then
      let (id, w1) := g_timeout_add_seconds CLEANUP_PENDING_TIMEOUT w
      some { w1 with data := some { data1 with timer := id } }
    else
      some { w with data := some data1 }

/-- The body of the loop at lines 257-269, for one byte of the copy `temp`. -/
def scan_result_char (c : Nat) : Nat :=
  let c1 :=
    if c = 32 ∨ c = 46 then 95
    else if c = 45 ∨ c = 43 then 95
    else if c = 33 ∨ c = 63 then 95
    else if c = 40 ∨ c = 41 then 95
    else if g_ascii_isprint c = false then 95
    else c
  g_ascii_tolower c1

/-- The security class chosen at lines 289-296. -/
def scan_result_security (network : supplicant_network) : String :=
  if network.has_rsn = true then "wpa2"
  else if network.has_wpa = true then "wpa"
  else if network.has_wep = true then "wep"
  else "none"

/-- The callback `scan_result` (lines 236-321). -/
def scan_result (network : supplicant_network) (w : World) : World :=
  match w.data with
  | none => w
  | some data =>
    match network.identifier with
    | none => w
    | some identifier =>
      if identifier = [] then w
      else
        let temp := identifier.map scan_result_char
        match find_pending_element w.heap data identifier with
        | none =>
          let (element, w1) := connman_element_create (some temp) w
          let w2 := set_element element (fun e => { e with type := element_type.NETWORK }) w1
          let w3 := set_element element (fun e => { e with index := w.index }) w2
          let w4 := set_element element (fun e => { e with Name := some identifier }) w3
          let w5 := set_element element (fun e => { e with SSID := some network.ssid }) w4
          let w6 := set_element element (fun e =>
            match e.security with
            | none => { e with security := some (scan_result_security network) }
            | some _ => e) w5
          let strength := (network.quality % 256).toNat
          let w7 := set_element element (fun e => { e with Strength := some strength }) w6
          let w8 := connman_element_register element element_ref.device w7
          let data1 := { data with current := data.current ++ [element] }
          set_element element (fun e => { e with available := true }) { w8 with data := some data1 }
        | some element =>
          let data1 := { data with pending := data.pending.erase element }
          let data2 := { data1 with current := data1.current ++ [element] }
          set_element element (fun e => { e with available := true }) { w with data := some data2 }

/-- The driver entry `wifi_probe` (lines 329-344); `alloc` tells whether `g_try_new0`
succeeds.  The new driver data is zeroed. -/
def wifi_probe (alloc : Bool) (w : World) : Int × World :=
  if alloc = false then (Int.neg ENOMEM, w)
  else
    (0, { w with data := some { current := [], pending := [], timer := 0,
                                identifier := none, connected := false } })

/-- The loops of `wifi_disable` (lines 396-400 and 405-409): unref each element. -/
def wifi_disable_loop : List Nat → World → World
  | [], w => w
  | network :: list, w => wifi_disable_loop list (connman_element_unref network w)

/-- The driver entry `wifi_disable` (lines 382-419); `none` is the dereference of a `NULL`
pointer. -/
def wifi_disable (w : World) : Option (Int × World) :=
  match w.data with
  | none => none
  | some data =>
    let (data1, w1) :=
      if data.timer > 0 then
        ({ data with timer := 0 }, g_source_remove data.timer w)
      else (data, w)
    let w2 := { w1 with log := w1.log ++ [Call.supplicant_disconnect element_ref.device] }
    let w3 := wifi_disable_loop data1.pending w2
    let data2 := { data1 with pending := [] }
    let w4 := wifi_disable_loop data2.current w3
    let data3 := { data2 with current := [] }
    let w5 := { w4 with
      log := w4.log ++ [Call.element_unregister_children element_ref.device,
                        Call.supplicant_stop element_ref.device] }
    some (0, { w5 with data := some data3 })

/-- The driver entry `network_enable` (lines 66-108) for the element at `element`; `none` is
the dereference of a `NULL` or dangling pointer.  Only the device carries driver data, so
`connman_element_get_data` of another parent is `NULL`; `connman_element_get_value` for the
security and the passphrase is read from the element itself. -/
def network_enable (element : Nat) (w : World) : Option (Int × World) :=
  match w.heap[element]? with
  | none => none
  | some e =>
    match e.Name with
    | none => some (Int.neg EIO, w)
    | some name =>
      match e.SSID with
      | none => some (Int.neg EIO, w)
      | some ssid =>
        let connect := fun (v : World) =>
          { v with log := v.log ++ [Call.supplicant_connect element ssid e.security e.passphrase] }
        match e.parent with
        | none => some (0, connect w)
        | some parent =>
          match (match parent with
                 | element_ref.device => w.data
                 | element_ref.object _ => none) with
          | none => none
          | some data =>
            if data.connected = true then some (Int.neg EBUSY, w)
            else
              some (0, connect { w with data := some { data with identifier := some name } })

/-- Modelled from the spec: the GLib main loop dispatches the timeout source `id` if it is
outstanding, and destroys it when the callback returns FALSE; a source that is not
outstanding is not dispatched. -/
def timeout_dispatch (id : Nat) (w : World) : Option World :=
  if id ∈ w.sources then
    match cleanup_pending w with
    | none => none
    | some (again, w1) =>
      if again = false then some { w1 with sources := w1.sources.erase id } else some w1
  else some w

/-- The notifications a probed device receives. -/
inductive Event where
  | clear_results
  | scan_result (network : supplicant_network)
  | cleanup_pending (id : Nat)
  | state_change (state : supplicant_state)
  | wifi_disable
  | network_enable (element : Nat)
deriving DecidableEq, Repr

/-- Deliver one notification; `none` when the handler dereferences an invalid pointer. -/
def step (w : World) : Event → Option World
  | Event.clear_results => clear_results w
  | Event.scan_result network => some (scan_result network w)
  | Event.cleanup_pending id => timeout_dispatch id w
  | Event.state_change state => some (state_change state w)
  | Event.wifi_disable => (wifi_disable w).map Prod.snd
  | Event.network_enable element => (network_enable element w).map Prod.snd

/-- Deliver a sequence of notifications, one after the other. -/
def run : List Event → World → Option World
  | [], w => some w
  | ev :: evs, w =>
    match step w ev with
    | none => none
    | some w1 => run evs w1

/-- The driver data right after `wifi_probe`: both lists empty, no timer, no target, not
connected. -/
def probed_data : wifi_data :=
  { current := [], pending := [], timer := 0, identifier := none, connected := false }

/-- A freshly probed device: zeroed driver data and no outstanding timeout source. -/
def freshly_probed (w : World) : Prop :=
  w.data = some probed_data ∧ w.sources = []

/-- A concrete freshly probed device with link index 3 and nothing created yet. -/
def wlan0 : World :=
  { index := 3, data := some probed_data, heap := [], sources := [], last_source := 0, log := [] }

/-- The bytes of "HomeNet". -/
def HomeNet : Bytes := [72, 111, 109, 101, 78, 101, 116]

/-- The scan result of the scenario: "HomeNet" with RSN and quality 70. -/
def HomeNet_result : supplicant_network :=
  { identifier := some HomeNet, ssid := HomeNet, has_wep := false, has_wpa := false,
    has_rsn := true, quality := 70 }

/-- The calls that retiring a list of elements makes: unregister and unref, one element
after the other. -/
def retire_calls (l : List Nat) : List Call :=
  l.flatMap (fun element => [Call.element_unregister element, Call.element_unref element])

/-- The calls that releasing a list of elements makes: one unref for each. -/
def unref_calls (l : List Nat) : List Call :=
  l.map Call.element_unref

/-- The number of entries of `current` and `pending` whose element carries the raw Name. -/
def named_in_sets (w : World) (identifier : Bytes) : Nat :=
  match w.data with
  | none => 0
  | some d => ((d.current ++ d.pending).filter (match_Name w.heap identifier)).length

/-- Three scan cycles in which "HomeNet" is seen in the first two. -/
def seen_twice : List Event :=
  [Event.clear_results, Event.scan_result HomeNet_result, Event.clear_results,
   Event.scan_result HomeNet_result, Event.cleanup_pending 1, Event.clear_results]

/-- The device after one cycle in which "HomeNet" was seen once. -/
def after_cycle_1 : World := scan_result HomeNet_result wlan0

/-- The two lists hold valid pointers and no pointer twice, over both lists together. -/
def sets_wf (w : World) : Prop :=
  ∃ d, w.data = some d ∧ (d.current ++ d.pending).Nodup ∧
    ∀ p ∈ d.current ++ d.pending, p < w.heap.length

/-- No entry of the two lists is an element whose raw Name is the empty string. -/
def names_wf (w : World) : Prop :=
  ∃ d, w.data = some d ∧ ∀ p ∈ d.current ++ d.pending, match_Name w.heap [] p = false

/-- The scenario of `vanished` with the timer firing before cycle 3 begins. -/
def vanished_early_timer : List Event :=
  [Event.scan_result HomeNet_result, Event.clear_results, Event.cleanup_pending 1,
   Event.clear_results]

/-- The cleanup timer matches the main loop: the outstanding sources are exactly the one
whose id the handle holds, and none when the handle is 0. -/
def timer_wf (w : World) : Prop :=
  ∃ d, w.data = some d ∧ w.sources = if d.timer = 0 then [] else [d.timer]

/-- The bytes of "Guest". -/
def Guest : Bytes := [71, 117, 101, 115, 116]

/-- A scan result for a second network, "Guest", with WPA and quality 40. -/
def Guest_result : supplicant_network :=
  { identifier := some Guest, ssid := Guest, has_wep := false, has_wpa := true,
    has_rsn := false, quality := 40 }

/-- The scenario of three cycles: "HomeNet" is seen in cycle 1, cycles 2 and 3 begin with
nothing seen, then the timer armed at the start of cycle 2 fires. -/
def vanished : List Event :=
  [Event.scan_result HomeNet_result, Event.clear_results, Event.clear_results,
   Event.cleanup_pending 1]

/-- A device whose two lists are both non-empty: "HomeNet" was seen in cycle 1 and only
"Guest" in cycle 2, and the timer has not fired yet. -/
def both_nonempty : List Event :=
  [Event.scan_result HomeNet_result, Event.clear_results, Event.scan_result Guest_result]

/-- A device that connects to "HomeNet" in cycle 1 and then begins cycle 2, which moves the
connected network to `pending`. -/
def connected_rescan : List Event :=
  [Event.scan_result HomeNet_result, Event.network_enable 0,
   Event.state_change supplicant_state.STATE_COMPLETED, Event.clear_results]

/-- The driver data after `connected_rescan`: connected to "HomeNet", which is in `pending`. -/
def connected_rescan_data : wifi_data :=
  { current := [], pending := [0], timer := 1, identifier := some HomeNet, connected := true }

/-- The network element that `scan_result` builds for a result whose identifier is not found
in `pending` (lines 275-318). -/
def new_network (index : Int) (network : supplicant_network) (identifier : Bytes) :
    connman_element :=
  { name := some (identifier.map scan_result_char), type := element_type.NETWORK,
    index := index, parent := some element_ref.device, available := true,
    security := some (scan_result_security network), passphrase := none,
    Name := some identifier, SSID := some network.ssid,
    Strength := some (network.quality % 256).toNat }

/-- The address-configuration element that `state_change` builds (lines 186-191). -/
def new_dhcp (index : Int) (element : Nat) : connman_element :=
  { name := none, type := element_type.DHCP, index := index,
    parent := some (element_ref.object element), available := false, security := none,
    passphrase := none, Name := none, SSID := none, Strength := none }

/-- The driver data at the start of cycle 2, after cycle 1 saw "HomeNet": the network is in
`pending` and timer 1 is armed. -/
def armed_data : wifi_data :=
  { current := [], pending := [0], timer := 1, identifier := none, connected := false }

/-- The device at the start of cycle 2, after cycle 1 saw "HomeNet". -/
def armed_device : World :=
  { index := 3, data := some armed_data, heap := after_cycle_1.heap, sources := [1],
    last_source := 1,
    log := after_cycle_1.log ++ [Call.timeout_add_seconds CLEANUP_PENDING_TIMEOUT 1] }

/-- The device connected to "HomeNet" (element 0), which is in `current`. -/
def connected_device : World :=
  { index := 3,
    data := some { current := [0], pending := [], timer := 0, identifier := some HomeNet,
                   connected := true },
    heap := after_cycle_1.heap ++ [new_dhcp 3 0], sources := [], last_source := 0,
    log := [] }

/-- The device after cycle 1 saw "HomeNet" and a connect to it was requested. -/
def connecting_device : World :=
  { after_cycle_1 with
    data := some { current := [0], pending := [], timer := 0, identifier := some HomeNet,
                   connected := false } }

/-! ## The device list of the plugin -/

/-- The ASCII whitespace characters: space, tab, line feed, vertical tab, form feed and
carriage return. -/
def spec_whitespace (c : Nat) : Bool :=
  decide (c = 32 ∨ c = 9 ∨ c = 10 ∨ c = 11 ∨ c = 12 ∨ c = 13)

/-- The characters `.`, `-`, `+`, `!`, `?`, `(` and `)`. -/
def spec_punctuation (c : Nat) : Bool :=
  decide (c = 46 ∨ c = 45 ∨ c = 43 ∨ c = 33 ∨ c = 63 ∨ c = 40 ∨ c = 41)

/-- The printable ASCII characters, 0x20 to 0x7e. -/
def spec_printable (c : Nat) : Bool := decide (32 ≤ c ∧ c ≤ 126)

/-- The ASCII lowercase of a byte. -/
def spec_lowercase (c : Nat) : Nat := if 65 ≤ c ∧ c ≤ 90 then c + 32 else c

/-- The key character that the specification asks for: `_` for whitespace, for the listed
punctuation and for what is not printable ASCII, the lowercased byte otherwise. -/
def spec_key_char (c : Nat) : Nat :=
  if spec_whitespace c = true ∨ spec_punctuation c = true ∨ spec_printable c = false then 95
  else spec_lowercase c

/-- The bytes of "Home Net". -/
def Home_Net : Bytes := [72, 111, 109, 101, 32, 78, 101, 116]

/-- The bytes of "home.net". -/
def home_dot_net : Bytes := [104, 111, 109, 101, 46, 110, 101, 116]

/-- A scan result for "Home Net", without security. -/
def Home_Net_result : supplicant_network :=
  { identifier := some Home_Net, ssid := Home_Net, has_wep := false, has_wpa := false,
    has_rsn := false, quality := 55 }

/-- A scan result for "home.net", with WEP. -/
def home_dot_net_result : supplicant_network :=
  { identifier := some home_dot_net, ssid := home_dot_net, has_wep := true, has_wpa := false,
    has_rsn := false, quality := 20 }

/-- A later scan result for "HomeNet", with quality 30 and WEP only. -/
def HomeNet_weaker : supplicant_network :=
  { identifier := some HomeNet, ssid := HomeNet, has_wep := true, has_wpa := false,
    has_rsn := false, quality := 30 }

/-- A device is marked connected only with a target identifier set. -/
def target_wf (w : World) : Prop :=
  ∃ d, w.data = some d ∧ (d.connected = true → d.identifier ≠ none)

/-- The device after `connected_rescan`: connected to "HomeNet", which a new cycle has moved
to `pending`. -/
def connected_rescan_device : World :=
  { armed_device with
    data := some connected_rescan_data,
    heap := after_cycle_1.heap ++ [new_dhcp 3 0],
    log := after_cycle_1.log ++
      [Call.supplicant_connect 0 HomeNet (some "wpa2") none, Call.element_create 1,
       Call.element_register 1 (element_ref.object 0),
       Call.timeout_add_seconds CLEANUP_PENDING_TIMEOUT 1] }

/-! ## Facts about the heap -/

theorem length_update_at (f : connman_element → connman_element) (h : List connman_element)
    (p : Nat) : (update_at f h p).length = h.length := by
  induction h generalizing p with
  | nil => rfl
  | cons e es ih => cases p <;> simp [update_at, ih]

theorem getElem?_update_at (f : connman_element → connman_element) (h : List connman_element)
    (p q : Nat) : (update_at f h p)[q]? = if q = p then (h[q]?).map f else h[q]? := by
  induction h generalizing p q with
  | nil => simp [update_at]
  | cons e es ih =>
    cases p with
    | zero => cases q <;> simp [update_at]
    | succ p => cases q <;> simp [update_at, ih]

theorem update_at_append_length (f : connman_element → connman_element)
    (h : List connman_element) (x : connman_element) :
    update_at f (h ++ [x]) h.length = h ++ [f x] := by
  induction h with
  | nil => rfl
  | cons e es ih => simp [update_at, ih]

theorem match_Name_update_at (f : connman_element → connman_element)
    (hf : ∀ e, (f e).Name = e.Name) (h : List connman_element) (p : Nat) (identifier : Bytes)
    (q : Nat) : match_Name (update_at f h p) identifier q = match_Name h identifier q := by
  unfold match_Name
  rw [getElem?_update_at]
  by_cases hq : q = p
  · subst hq
    cases hh : h[q]? <;> simp [hf]
  · simp [hq]

theorem match_Name_append (h : List connman_element) (x : connman_element) (identifier : Bytes)
    (q : Nat) (hq : q < h.length) :
    match_Name (h ++ [x]) identifier q = match_Name h identifier q := by
  unfold match_Name
  rw [List.getElem?_append_left hq]

theorem match_Name_available (h : List connman_element) (p : Nat) (identifier : Bytes)
    (q : Nat) :
    match_Name (update_at (fun e => { e with available := true }) h p) identifier q =
      match_Name h identifier q :=
  match_Name_update_at (fun e => { e with available := true }) (fun _ => rfl) h p identifier q

theorem match_Name_append_new (h : List connman_element) (x : connman_element)
    (identifier : Bytes) :
    match_Name (h ++ [x]) identifier h.length = decide (x.Name = some identifier) := by
  unfold match_Name
  simp

theorem match_Name_lt {h : List connman_element} {identifier : Bytes} {q : Nat}
    (hm : match_Name h identifier q = true) : q < h.length := by
  unfold match_Name at hm
  by_contra hlt
  have : h[q]? = none := List.getElem?_eq_none (by omega)
  rw [this] at hm
  simp at hm

theorem match_Name_iff {h : List connman_element} {identifier : Bytes} {q : Nat} :
    match_Name h identifier q = true ↔ ∃ e, h[q]? = some e ∧ e.Name = some identifier := by
  unfold match_Name
  cases hh : h[q]? <;> simp

/-! ## What each handler does to a device with driver data -/

theorem cleanup_pending_loop_eq (l : List Nat) (w : World) :
    cleanup_pending_loop l w = { w with log := w.log ++ retire_calls l } := by
  induction l generalizing w with
  | nil => simp [cleanup_pending_loop, retire_calls]
  | cons e l ih =>
    simp [cleanup_pending_loop, ih, connman_element_unref, connman_element_unregister,
      retire_calls, List.flatMap_cons]

theorem wifi_disable_loop_eq (l : List Nat) (w : World) :
    wifi_disable_loop l w = { w with log := w.log ++ unref_calls l } := by
  induction l generalizing w with
  | nil => simp [wifi_disable_loop, unref_calls]
  | cons e l ih =>
    simp [wifi_disable_loop, ih, connman_element_unref, unref_calls]

theorem cleanup_pending_eq (w : World) (d : wifi_data) (hd : w.data = some d) :
    cleanup_pending w =
      some (false, { w with data := some { d with pending := [], timer := 0 },
                            log := w.log ++ retire_calls d.pending }) := by
  simp [cleanup_pending, hd, cleanup_pending_loop_eq]

theorem clear_results_armed (w : World) (d : wifi_data) (hd : w.data = some d)
    (ht : d.timer ≠ 0) :
    clear_results w =
      some { w with data := some { d with pending := d.current, current := [] } } := by
  simp [clear_results, hd, ht]

theorem clear_results_idle (w : World) (d : wifi_data) (hd : w.data = some d)
    (ht : d.timer = 0) :
    clear_results w =
      some { w with
        data := some { d with pending := d.current, current := [],
                              timer := w.last_source + 1 },
        sources := w.sources ++ [w.last_source + 1],
        last_source := w.last_source + 1,
        log := w.log ++ [Call.timeout_add_seconds CLEANUP_PENDING_TIMEOUT
                          (w.last_source + 1)] } := by
  simp [clear_results, hd, ht, g_timeout_add_seconds]

theorem scan_result_new (network : supplicant_network) (w : World) (d : wifi_data)
    (identifier : Bytes) (hd : w.data = some d) (hi : network.identifier = some identifier)
    (hne : identifier ≠ []) (hf : find_pending_element w.heap d identifier = none) :
    scan_result network w =
      { w with data := some { d with current := d.current ++ [w.heap.length] },
               heap := w.heap ++ [new_network w.index network identifier],
               log := w.log ++ [Call.element_create w.heap.length,
                                Call.element_register w.heap.length element_ref.device] } := by
  simp [scan_result, hd, hi, hne, hf, connman_element_create, set_element,
    connman_element_register, update_at_append_length, blank_element, new_network]

theorem scan_result_found (network : supplicant_network) (w : World) (d : wifi_data)
    (identifier : Bytes) (element : Nat) (hd : w.data = some d)
    (hi : network.identifier = some identifier) (hne : identifier ≠ [])
    (hf : find_pending_element w.heap d identifier = some element) :
    scan_result network w =
      { w with data := some { d with pending := d.pending.erase element,
                                     current := d.current ++ [element] },
               heap := update_at (fun e => { e with available := true }) w.heap element } := by
  simp [scan_result, hd, hi, hne, hf, set_element]

theorem scan_result_ignored (network : supplicant_network) (w : World)
    (h : w.data = none ∨ network.identifier = none ∨ network.identifier = some []) :
    scan_result network w = w := by
  unfold scan_result
  rcases h with h | h | h
  · simp [h]
  · cases hd : w.data <;> simp [h]
  · cases hd : w.data <;> simp [h]

theorem state_change_completed (w : World) (d : wifi_data) (identifier : Bytes) (element : Nat)
    (e : connman_element) (hd : w.data = some d) (hi : d.identifier = some identifier)
    (hf : find_current_element w.heap d identifier = some element)
    (he : w.heap[element]? = some e) :
    state_change supplicant_state.STATE_COMPLETED w =
      { w with data := some { d with connected := true },
               heap := w.heap ++ [new_dhcp e.index element],
               log := w.log ++ [Call.element_create w.heap.length,
                 Call.element_register w.heap.length (element_ref.object element)] } := by
  have hlt : element < w.heap.length := by
    by_contra hn
    have : w.heap[element]? = none := List.getElem?_eq_none (by omega)
    rw [this] at he
    cases he
  simp [state_change, hd, hi, hf, connman_element_create, set_element,
    connman_element_register, update_at_append_length, blank_element, new_dhcp,
    List.getElem?_append_left hlt, he]

theorem state_change_not_found (state : supplicant_state) (w : World)
    (h : ∀ d, w.data = some d → ∀ identifier, d.identifier = some identifier →
      find_current_element w.heap d identifier = none) :
    state_change state w = w := by
  unfold state_change
  cases hd : w.data with
  | none => rfl
  | some d =>
    cases hi : d.identifier with
    | none => simp [hi]
    | some identifier => simp [hi, h d hd identifier hi]

theorem state_change_down (state : supplicant_state) (w : World) (d : wifi_data)
    (identifier : Bytes) (element : Nat) (hd : w.data = some d)
    (hi : d.identifier = some identifier)
    (hf : find_current_element w.heap d identifier = some element)
    (hs : state = supplicant_state.STATE_DISCONNECTED ∨ state = supplicant_state.STATE_INACTIVE) :
    state_change state w = { w with data := some { d with connected := false } } := by
  rcases hs with hs | hs <;> subst hs <;> simp [state_change, hd, hi, hf]

theorem state_change_other (code : Nat) (w : World) :
    state_change (supplicant_state.STATE_OTHER code) w = w := by
  unfold state_change
  cases hd : w.data with
  | none => rfl
  | some d =>
    cases hi : d.identifier with
    | none => simp [hi]
    | some identifier =>
      cases hf : find_current_element w.heap d identifier <;> simp [hi, hf]

theorem wifi_disable_eq (w : World) (d : wifi_data) (hd : w.data = some d) :
    wifi_disable w =
      some (0, { w with
        data := some { d with current := [], pending := [], timer := 0 },
        sources := if d.timer > 0 then w.sources.erase d.timer else w.sources,
        log := w.log ++ (if d.timer > 0 then [Call.source_remove d.timer] else [])
          ++ [Call.supplicant_disconnect element_ref.device]
          ++ unref_calls d.pending ++ unref_calls d.current
          ++ [Call.element_unregister_children element_ref.device,
              Call.supplicant_stop element_ref.device] }) := by
  by_cases ht : d.timer > 0
  · simp [wifi_disable, hd, ht, g_source_remove, wifi_disable_loop_eq]
  · have h0 : d.timer = 0 := by omega
    simp [wifi_disable, hd, ht, wifi_disable_loop_eq]
    cases d
    simp_all

theorem network_enable_frame (element : Nat) (w w1 : World) (r : Int)
    (h : network_enable element w = some (r, w1)) :
    w1.heap = w.heap ∧ w1.sources = w.sources ∧ w1.last_source = w.last_source ∧
    w1.index = w.index ∧
    (∀ d, w.data = some d → ∃ i, w1.data = some { d with identifier := i }) := by
  have keep : ∀ v : World, v = w1 → v = w →
      w1.heap = w.heap ∧ w1.sources = w.sources ∧ w1.last_source = w.last_source ∧
      w1.index = w.index ∧
      (∀ d, w.data = some d → ∃ i, w1.data = some { d with identifier := i }) := by
    intro v h1 h2
    rw [← h1, h2]
    exact ⟨rfl, rfl, rfl, rfl, fun d hd => ⟨d.identifier, hd⟩⟩
  unfold network_enable at h
  cases hE : w.heap[element]? with
  | none => simp [hE] at h
  | some e =>
    cases hN : e.Name with
    | none => simp [hE, hN] at h; exact keep w h.2 rfl
    | some name =>
      cases hS : e.SSID with
      | none => simp [hE, hN, hS] at h; exact keep w h.2 rfl
      | some ssid =>
        cases hP : e.parent with
        | none =>
          simp [hE, hN, hS, hP] at h
          obtain ⟨_, h⟩ := h
          subst h
          exact ⟨rfl, rfl, rfl, rfl, fun d hd => ⟨d.identifier, hd⟩⟩
        | some parent =>
          cases parent with
          | object q => simp [hE, hN, hS, hP] at h
          | device =>
            cases hD : w.data with
            | none => simp [hE, hN, hS, hP, hD] at h
            | some data =>
              by_cases hc : data.connected = true
              · simp [hE, hN, hS, hP, hD, hc] at h
                have := keep w h.2 rfl
                rwa [hD] at this
              · simp [hE, hN, hS, hP, hD, hc] at h
                obtain ⟨_, h⟩ := h
                subst h
                refine ⟨rfl, rfl, rfl, rfl, fun d hd => ?_⟩
                cases hd
                exact ⟨some name, by simp at hc; simp [hc]⟩

/-! ## The two lists of a device never share an element -/

theorem sets_wf_of_freshly_probed (w : World) (h : freshly_probed w) : sets_wf w := by
  refine ⟨probed_data, h.1, ?_, ?_⟩ <;> simp [probed_data]

theorem sets_wf_clear_results (w w1 : World) (h : sets_wf w) (hs : clear_results w = some w1) :
    sets_wf w1 := by
  obtain ⟨d, hd, hn, hb⟩ := h
  have hn1 : d.current.Nodup := (List.nodup_append.mp hn).1
  have hb1 : ∀ p ∈ d.current, p < w.heap.length := fun p hp =>
    hb p (List.mem_append_left _ hp)
  by_cases ht : d.timer = 0
  · rw [clear_results_idle w d hd ht] at hs
    cases hs
    exact ⟨_, rfl, by simpa using hn1, by simpa using hb1⟩
  · rw [clear_results_armed w d hd ht] at hs
    cases hs
    exact ⟨_, rfl, by simpa using hn1, by simpa using hb1⟩

theorem sets_wf_scan_result (network : supplicant_network) (w : World) (h : sets_wf w) :
    sets_wf (scan_result network w) := by
  obtain ⟨d, hd, hn, hb⟩ := h
  cases hi : network.identifier with
  | none => rw [scan_result_ignored network w (Or.inr (Or.inl hi))]; exact ⟨d, hd, hn, hb⟩
  | some identifier =>
    by_cases hne : identifier = []
    · subst hne
      rw [scan_result_ignored network w (Or.inr (Or.inr hi))]; exact ⟨d, hd, hn, hb⟩
    · cases hf : find_pending_element w.heap d identifier with
      | none =>
        rw [scan_result_new network w d identifier hd hi hne hf]
        refine ⟨_, rfl, ?_, ?_⟩
        · have hfresh : w.heap.length ∉ d.current ++ d.pending := fun hm =>
            Nat.lt_irrefl _ (hb _ hm)
          have hperm : (d.current ++ [w.heap.length] ++ d.pending).Perm
              (w.heap.length :: (d.current ++ d.pending)) := by
            simp only [List.append_assoc, List.singleton_append]
            exact List.perm_middle
          exact hperm.nodup_iff.mpr (List.nodup_cons.mpr ⟨hfresh, hn⟩)
        · intro p hp
          simp only [List.mem_append, List.mem_singleton, List.length_append,
            List.length_singleton] at hp ⊢
          rcases hp with (hp | hp) | hp
          · have := hb p (List.mem_append_left _ hp); omega
          · omega
          · have := hb p (List.mem_append_right _ hp); omega
      | some element =>
        rw [scan_result_found network w d identifier element hd hi hne hf]
        have hmem : element ∈ d.pending := List.mem_of_find?_eq_some hf
        obtain ⟨hn1, hn2, hdis⟩ := List.nodup_append.mp hn
        refine ⟨_, rfl, ?_, ?_⟩
        · have hnot : element ∉ d.current ++ d.pending.erase element := by
            intro hm
            rcases List.mem_append.mp hm with hm | hm
            · exact hdis hm hmem
            · exact ((List.Nodup.mem_erase_iff hn2).mp hm).1 rfl
          have hsub : (d.current ++ d.pending.erase element).Nodup :=
            List.Nodup.sublist
              (List.Sublist.append (List.Sublist.refl _) (List.erase_sublist _ _)) hn
          have hperm : (d.current ++ [element] ++ d.pending.erase element).Perm
              (element :: (d.current ++ d.pending.erase element)) := by
            simp only [List.append_assoc, List.singleton_append]
            exact List.perm_middle
          exact hperm.nodup_iff.mpr (List.nodup_cons.mpr ⟨hnot, hsub⟩)
        · intro p hp
          simp only [List.mem_append, List.mem_singleton, length_update_at] at hp ⊢
          rcases hp with (hp | hp) | hp
          · exact hb p (List.mem_append_left _ hp)
          · subst hp; exact hb _ (List.mem_append_right _ hmem)
          · exact hb p (List.mem_append_right _ (List.mem_of_mem_erase hp))

theorem sets_wf_timeout_dispatch (id : Nat) (w w1 : World) (h : sets_wf w)
    (hs : timeout_dispatch id w = some w1) : sets_wf w1 := by
  obtain ⟨d, hd, hn, hb⟩ := h
  unfold timeout_dispatch at hs
  rw [cleanup_pending_eq w d hd] at hs
  have hn1 : d.current.Nodup := (List.nodup_append.mp hn).1
  have hb1 : ∀ p ∈ d.current, p < w.heap.length := fun p hp =>
    hb p (List.mem_append_left _ hp)
  by_cases hid : id ∈ w.sources
  · simp only [hid, if_true] at hs
    cases hs
    exact ⟨_, rfl, by simpa using hn1, by simpa using hb1⟩
  · simp only [hid, if_false] at hs
    cases hs
    exact ⟨d, hd, hn, hb⟩

theorem sets_wf_state_change (state : supplicant_state) (w : World) (h : sets_wf w) :
    sets_wf (state_change state w) := by
  obtain ⟨d, hd, hn, hb⟩ := h
  cases hi : d.identifier with
  | none =>
    rw [state_change_not_found state w (fun d1 hd1 i hi1 => by
      rw [hd] at hd1; cases hd1; rw [hi] at hi1; cases hi1)]
    exact ⟨d, hd, hn, hb⟩
  | some identifier =>
    cases hf : find_current_element w.heap d identifier with
    | none =>
      rw [state_change_not_found state w (fun d1 hd1 i hi1 => by
        rw [hd] at hd1; cases hd1; rw [hi] at hi1; cases hi1; exact hf)]
      exact ⟨d, hd, hn, hb⟩
    | some element =>
      cases state with
      | STATE_COMPLETED =>
        obtain ⟨e, he, _⟩ := match_Name_iff.mp (List.find?_some hf)
        rw [state_change_completed w d identifier element e hd hi hf he]
        refine ⟨_, rfl, hn, fun p hp => ?_⟩
        have := hb p hp
        simp only [List.length_append, List.length_singleton]
        omega
      | STATE_DISCONNECTED =>
        rw [state_change_down _ w d identifier element hd hi hf (Or.inl rfl)]
        exact ⟨_, rfl, hn, hb⟩
      | STATE_INACTIVE =>
        rw [state_change_down _ w d identifier element hd hi hf (Or.inr rfl)]
        exact ⟨_, rfl, hn, hb⟩
      | STATE_OTHER code =>
        rw [state_change_other]
        exact ⟨d, hd, hn, hb⟩

theorem sets_wf_step (ev : Event) (w w1 : World) (h : sets_wf w) (hs : step w ev = some w1) :
    sets_wf w1 := by
  cases ev with
  | clear_results => exact sets_wf_clear_results w w1 h hs
  | scan_result network =>
    simp only [step, Option.some.injEq] at hs
    subst hs
    exact sets_wf_scan_result network w h
  | cleanup_pending id => exact sets_wf_timeout_dispatch id w w1 h hs
  | state_change state =>
    simp only [step, Option.some.injEq] at hs
    subst hs
    exact sets_wf_state_change state w h
  | wifi_disable =>
    obtain ⟨d, hd, _, _⟩ := h
    simp only [step, wifi_disable_eq w d hd, Option.map_some', Option.some.injEq] at hs
    subst hs
    exact ⟨_, rfl, by simp, by simp⟩
  | network_enable element =>
    obtain ⟨d, hd, hn, hb⟩ := h
    simp only [step] at hs
    cases hr : network_enable element w with
    | none => rw [hr] at hs; cases hs
    | some r =>
      rw [hr] at hs
      simp only [Option.map_some', Option.some.injEq] at hs
      obtain ⟨hh, _, _, _, hdata⟩ := network_enable_frame element w r.2 r.1 hr
      obtain ⟨i, hi⟩ := hdata d hd
      subst hs
      exact ⟨_, hi, hn, by rw [hh]; exact hb⟩

theorem sets_wf_run (evs : List Event) (w w1 : World) (h : sets_wf w)
    (hr : run evs w = some w1) : sets_wf w1 := by
  induction evs generalizing w with
  | nil =>
    simp only [run, Option.some.injEq] at hr
    subst hr
    exact h
  | cons ev evs ih =>
    simp only [run] at hr
    cases hs : step w ev with
    | none => rw [hs] at hr; cases hr
    | some w2 =>
      rw [hs] at hr
      exact ih w2 (sets_wf_step ev w w2 h hs) hr

theorem step_isSome (ev : Event) (w : World) (h : sets_wf w)
    (hev : ∀ element, ev ≠ Event.network_enable element) : (step w ev).isSome := by
  obtain ⟨d, hd, _, _⟩ := h
  cases ev with
  | clear_results =>
    by_cases ht : d.timer = 0
    · simp [step, clear_results_idle w d hd ht]
    · simp [step, clear_results_armed w d hd ht]
  | scan_result network => simp [step]
  | cleanup_pending id =>
    by_cases hid : id ∈ w.sources <;> simp [step, timeout_dispatch, cleanup_pending_eq w d hd, hid]
  | state_change state => simp [step]
  | wifi_disable => simp [step, wifi_disable_eq w d hd]
  | network_enable element => exact absurd rfl (hev element)

theorem run_isSome (evs : List Event) (w : World) (h : sets_wf w)
    (hev : ∀ element, Event.network_enable element ∉ evs) : (run evs w).isSome := by
  induction evs generalizing w with
  | nil => simp [run]
  | cons ev evs ih =>
    have h1 : (step w ev).isSome :=
      step_isSome ev w h (fun element he => hev element (by simp [he]))
    cases hs : step w ev with
    | none => rw [hs] at h1; cases h1
    | some w2 =>
      simp only [run, hs]
      exact ih w2 (sets_wf_step ev w w2 h hs)
        (fun element he => hev element (List.mem_cons_of_mem _ he))

/-- C1: from a freshly probed device, whatever sequence of notifications is delivered, every
state reached has driver data in which no element pointer is in both `current` and
`pending`; and a sequence of clear_results, scan_result, timer, state_change and
wifi_disable notifications always runs to the end. -/
theorem C1_current_pending_disjoint (evs : List Event) (w0 : World) (h0 : freshly_probed w0) :
    (∀ w, run evs w0 = some w →
      ∃ d, w.data = some d ∧ ∀ p, p ∈ d.current → p ∉ d.pending) ∧
    ((∀ element, Event.network_enable element ∉ evs) → (run evs w0).isSome) := by
  refine ⟨fun w hr => ?_, fun hev => run_isSome evs w0 (sets_wf_of_freshly_probed w0 h0) hev⟩
  obtain ⟨d, hd, hn, _⟩ := sets_wf_run evs w0 w (sets_wf_of_freshly_probed w0 h0) hr
  exact ⟨d, hd, fun p hc hp => (List.nodup_append.mp hn).2.2 hc hp⟩

/-- Witness of C1: the invariant applied to three scan cycles of the device `wlan0`. -/
theorem C1_current_pending_disjoint_witness :
    freshly_probed wlan0 ∧
    ((∀ w, run seen_twice wlan0 = some w →
      ∃ d, w.data = some d ∧ ∀ p, p ∈ d.current → p ∉ d.pending) ∧
    ((∀ element, Event.network_enable element ∉ seen_twice) →
      (run seen_twice wlan0).isSome)) :=
  ⟨⟨rfl, rfl⟩, C1_current_pending_disjoint seen_twice wlan0 ⟨rfl, rfl⟩⟩

/-! ## Repeated results within one cycle -/

theorem filter_erase_of_find (P : Nat → Bool) (l : List Nat) (e : Nat)
    (hc : (l.filter P).length ≤ 1) (hf : l.find? P = some e) :
    ∀ x ∈ l.erase e, P x = false := by
  induction l with
  | nil => simp at hf
  | cons a t ih =>
    by_cases ha : P a = true
    · have hae : a = e := by simpa [List.find?_cons, ha] using hf
      subst hae
      have ht : (t.filter P).length = 0 := by
        simp only [List.filter_cons, ha, if_true, List.length_cons] at hc
        omega
      intro x hx
      simp only [List.erase_cons_head] at hx
      by_contra hPx
      have hmem : x ∈ t.filter P := List.mem_filter.mpr ⟨hx, by simpa using hPx⟩
      have := List.length_pos_of_mem hmem
      omega
    · have hfa : P a = false := by simpa using ha
      have hft : t.find? P = some e := by simpa [List.find?_cons, hfa] using hf
      have hPe : P e = true := List.find?_some hft
      have hne : a ≠ e := fun h => by rw [h, hPe] at hfa; cases hfa
      have hct : (t.filter P).length ≤ 1 := by
        simpa [List.filter_cons, hfa] using hc
      intro x hx
      rw [List.erase_cons_tail (by simpa using hne)] at hx
      rcases List.mem_cons.mp hx with hx | hx
      · rw [hx]; exact hfa
      · exact ih hct hft x hx

/-- Counterexample to C2: on the fresh device `wlan0`, the second of two scan results for
"HomeNet" in one cycle creates and registers a second element, and `current` then holds two
objects that carry the raw Name "HomeNet". -/
theorem C2_counterexample_duplicate :
    (scan_result HomeNet_result after_cycle_1).heap.length = after_cycle_1.heap.length + 1 ∧
    (scan_result HomeNet_result after_cycle_1).log =
      after_cycle_1.log ++ [Call.element_create 1, Call.element_register 1 element_ref.device] ∧
    (scan_result HomeNet_result after_cycle_1).data.map wifi_data.current = some [0, 1] ∧
    named_in_sets (scan_result HomeNet_result after_cycle_1) HomeNet = 2 := by
  refine ⟨?_, ?_, ?_, ?_⟩ <;> decide

/-- C2, amended: `scan_result` looks the identifier up in `pending` only.  In a state whose
`pending` holds valid pointers and at most one network with the raw Name of a non-empty
identifier, two scan results for it in one cycle leave two distinct objects with that Name at
the end of `current`: the one the first call moved or created, and a new element that the
second call creates and registers. -/
theorem C2_second_result_creates_again (network : supplicant_network) (w : World)
    (d : wifi_data) (identifier : Bytes) (hd : w.data = some d)
    (hi : network.identifier = some identifier) (hne : identifier ≠ [])
    (hwf : ∀ p ∈ d.pending, p < w.heap.length)
    (hone : (d.pending.filter (match_Name w.heap identifier)).length ≤ 1) :
    ∃ first d2,
      (scan_result network (scan_result network w)).data = some d2 ∧
      d2.current = d.current ++ [first, (scan_result network w).heap.length] ∧
      first < (scan_result network w).heap.length ∧
      match_Name (scan_result network (scan_result network w)).heap identifier first = true ∧
      match_Name (scan_result network (scan_result network w)).heap identifier
        (scan_result network w).heap.length = true ∧
      (scan_result network (scan_result network w)).heap =
        (scan_result network w).heap ++ [new_network w.index network identifier] ∧
      (scan_result network (scan_result network w)).log =
        (scan_result network w).log ++
          [Call.element_create (scan_result network w).heap.length,
           Call.element_register (scan_result network w).heap.length element_ref.device] := by
  cases hf : find_pending_element w.heap d identifier with
  | none =>
    have h1 := scan_result_new network w d identifier hd hi hne hf
    have hf1 : find_pending_element (w.heap ++ [new_network w.index network identifier])
        { d with current := d.current ++ [w.heap.length] } identifier = none := by
      unfold find_pending_element at hf ⊢
      rw [List.find?_eq_none] at hf ⊢
      intro x hx
      rw [match_Name_append _ _ _ _ (hwf x hx)]
      exact hf x hx
    have h2 := scan_result_new network (scan_result network w)
      { d with current := d.current ++ [w.heap.length] } identifier
      (by rw [h1]) hi hne (by rw [h1]; exact hf1)
    refine ⟨w.heap.length, _, by rw [h2], ?_, ?_, ?_, ?_, ?_, ?_⟩
    · rw [h1]; simp
    · rw [h1]; simp
    · rw [h2, h1]
      simp only []
      rw [match_Name_append _ _ _ _ (by simp), match_Name_append_new]
      simp [new_network]
    · rw [h2, h1]
      simp only []
      rw [match_Name_append_new]
      simp [new_network]
    · rw [h2, h1]
    · rw [h2]
  | some element =>
    have h1 := scan_result_found network w d identifier element hd hi hne hf
    have hm : match_Name w.heap identifier element = true := List.find?_some hf
    have hlt : element < w.heap.length := match_Name_lt hm
    have hf1 : find_pending_element
        (update_at (fun e => { e with available := true }) w.heap element)
        { d with pending := d.pending.erase element, current := d.current ++ [element] }
        identifier = none := by
      unfold find_pending_element
      rw [List.find?_eq_none]
      intro x hx
      rw [match_Name_available]
      have := filter_erase_of_find _ d.pending element hone hf x hx
      simp [this]
    have h2 := scan_result_new network (scan_result network w)
      { d with pending := d.pending.erase element, current := d.current ++ [element] }
      identifier (by rw [h1]) hi hne (by rw [h1]; exact hf1)
    refine ⟨element, _, by rw [h2], ?_, ?_, ?_, ?_, ?_, ?_⟩
    · rw [h1]; simp [length_update_at]
    · rw [h1]; simpa [length_update_at] using hlt
    · rw [h2, h1]
      have hlt1 : element <
          (update_at (fun e => { e with available := true }) w.heap element).length := by
        rw [length_update_at]; exact hlt
      simp only []
      rw [match_Name_append _ _ _ _ hlt1, match_Name_available]
      exact hm
    · rw [h2, h1]
      simp only []
      rw [match_Name_append_new]
      simp [new_network]
    · rw [h2, h1]
    · rw [h2]

/-- Witness of C2, amended: two scan results for "HomeNet" on the fresh device `wlan0`. -/
theorem C2_second_result_creates_again_witness :
    ∃ first d2,
      (scan_result HomeNet_result (scan_result HomeNet_result wlan0)).data = some d2 ∧
      d2.current = probed_data.current ++ [first, (scan_result HomeNet_result wlan0).heap.length] ∧
      first < (scan_result HomeNet_result wlan0).heap.length ∧
      match_Name (scan_result HomeNet_result (scan_result HomeNet_result wlan0)).heap
        HomeNet first = true ∧
      match_Name (scan_result HomeNet_result (scan_result HomeNet_result wlan0)).heap HomeNet
        (scan_result HomeNet_result wlan0).heap.length = true ∧
      (scan_result HomeNet_result (scan_result HomeNet_result wlan0)).heap =
        (scan_result HomeNet_result wlan0).heap ++
          [new_network wlan0.index HomeNet_result HomeNet] ∧
      (scan_result HomeNet_result (scan_result HomeNet_result wlan0)).log =
        (scan_result HomeNet_result wlan0).log ++
          [Call.element_create (scan_result HomeNet_result wlan0).heap.length,
           Call.element_register (scan_result HomeNet_result wlan0).heap.length
             element_ref.device] :=
  C2_second_result_creates_again HomeNet_result wlan0 probed_data HomeNet rfl rfl (by decide)
    (by decide) (by decide)

/-! ## A network seen again in the next cycle -/

theorem match_Name_append_cases (h : List connman_element) (x : connman_element)
    (identifier : Bytes) (q : Nat) (hm : match_Name (h ++ [x]) identifier q = true) :
    match_Name h identifier q = true ∨ x.Name = some identifier := by
  by_cases hq : q < h.length
  · rw [match_Name_append _ _ _ _ hq] at hm
    exact Or.inl hm
  · obtain ⟨e, he, hn⟩ := match_Name_iff.mp hm
    rw [List.getElem?_append_right (by omega)] at he
    have hx : e = x := by
      cases hk : q - h.length with
      | zero => rw [hk] at he; simpa using he.symm
      | succ k => rw [hk] at he; simp at he
    rw [hx] at hn
    exact Or.inr hn

theorem names_wf_step (ev : Event) (w w1 : World) (h : names_wf w)
    (hs : step w ev = some w1) : names_wf w1 := by
  obtain ⟨d, hd, hnm⟩ := h
  have hcur : ∀ p ∈ d.current, match_Name w.heap [] p = false := fun p hp =>
    hnm p (List.mem_append_left _ hp)
  cases ev with
  | clear_results =>
    by_cases ht : d.timer = 0
    · simp only [step, clear_results_idle w d hd ht, Option.some.injEq] at hs
      subst hs
      exact ⟨_, rfl, by simpa using hcur⟩
    · simp only [step, clear_results_armed w d hd ht, Option.some.injEq] at hs
      subst hs
      exact ⟨_, rfl, by simpa using hcur⟩
  | scan_result network =>
    simp only [step, Option.some.injEq] at hs
    subst hs
    cases hi : network.identifier with
    | none => rw [scan_result_ignored network w (Or.inr (Or.inl hi))]; exact ⟨d, hd, hnm⟩
    | some identifier =>
      by_cases hne : identifier = []
      · subst hne
        rw [scan_result_ignored network w (Or.inr (Or.inr hi))]; exact ⟨d, hd, hnm⟩
      · cases hf : find_pending_element w.heap d identifier with
        | none =>
          rw [scan_result_new network w d identifier hd hi hne hf]
          refine ⟨_, rfl, fun p hp => ?_⟩
          by_contra hcon
          have hm : match_Name (w.heap ++ [new_network w.index network identifier]) [] p
              = true := by simpa using hcon
          rcases match_Name_append_cases _ _ _ _ hm with hold | hnew
          · simp only [List.mem_append, List.mem_singleton] at hp
            rcases hp with (hp | hp) | hp
            · rw [hnm p (List.mem_append_left _ hp)] at hold; cases hold
            · subst hp
              have := match_Name_lt hold
              omega
            · rw [hnm p (List.mem_append_right _ hp)] at hold; cases hold
          · simp only [new_network, Option.some.injEq] at hnew
            exact hne hnew
        | some element =>
          rw [scan_result_found network w d identifier element hd hi hne hf]
          refine ⟨_, rfl, fun p hp => ?_⟩
          simp only []
          rw [match_Name_available]
          simp only [List.mem_append, List.mem_singleton] at hp
          rcases hp with (hp | hp) | hp
          · exact hnm p (List.mem_append_left _ hp)
          · subst hp
            exact hnm _ (List.mem_append_right _ (List.mem_of_find?_eq_some hf))
          · exact hnm p (List.mem_append_right _ (List.mem_of_mem_erase hp))
  | cleanup_pending id =>
    simp only [step, timeout_dispatch, cleanup_pending_eq w d hd] at hs
    by_cases hid : id ∈ w.sources
    · simp only [hid, if_true, Option.some.injEq] at hs
      subst hs
      exact ⟨_, rfl, by simpa using hcur⟩
    · simp only [hid, if_false, Option.some.injEq] at hs
      subst hs
      exact ⟨d, hd, hnm⟩
  | state_change state =>
    simp only [step, Option.some.injEq] at hs
    subst hs
    obtain ⟨target, hi⟩ : ∃ target, d.identifier = target := ⟨_, rfl⟩
    cases target with
    | none =>
      rw [state_change_not_found state w (fun d1 hd1 i hi1 => by
        rw [hd] at hd1; cases hd1; rw [hi] at hi1; cases hi1)]
      exact ⟨d, hd, hnm⟩
    | some identifier =>
      cases hf : find_current_element w.heap d identifier with
      | none =>
        rw [state_change_not_found state w (fun d1 hd1 i hi1 => by
          rw [hd] at hd1; cases hd1; rw [hi] at hi1; cases hi1; exact hf)]
        exact ⟨d, hd, hnm⟩
      | some element =>
        cases state with
        | STATE_COMPLETED =>
          obtain ⟨e, he, _⟩ := match_Name_iff.mp (List.find?_some hf)
          rw [state_change_completed w d identifier element e hd hi hf he]
          refine ⟨_, rfl, fun p hp => ?_⟩
          by_contra hcon
          have hm : match_Name (w.heap ++ [new_dhcp e.index element]) [] p = true := by
            simpa using hcon
          rcases match_Name_append_cases _ _ _ _ hm with hold | hnew
          · rw [hnm p hp] at hold; cases hold
          · simp [new_dhcp] at hnew
        | STATE_DISCONNECTED =>
          rw [state_change_down _ w d identifier element hd hi hf (Or.inl rfl)]
          exact ⟨_, rfl, hnm⟩
        | STATE_INACTIVE =>
          rw [state_change_down _ w d identifier element hd hi hf (Or.inr rfl)]
          exact ⟨_, rfl, hnm⟩
        | STATE_OTHER code =>
          rw [state_change_other]
          exact ⟨d, hd, hnm⟩
  | wifi_disable =>
    simp only [step, wifi_disable_eq w d hd, Option.map_some', Option.some.injEq] at hs
    subst hs
    exact ⟨_, rfl, by simp⟩
  | network_enable element =>
    simp only [step] at hs
    cases hr : network_enable element w with
    | none => rw [hr] at hs; cases hs
    | some r =>
      rw [hr] at hs
      simp only [Option.map_some', Option.some.injEq] at hs
      obtain ⟨hh, _, _, _, hdata⟩ := network_enable_frame element w r.2 r.1 hr
      obtain ⟨i, hi⟩ := hdata d hd
      subst hs
      exact ⟨_, hi, by rw [hh]; exact hnm⟩

theorem names_wf_run (evs : List Event) (w w1 : World) (h : names_wf w)
    (hr : run evs w = some w1) : names_wf w1 := by
  induction evs generalizing w with
  | nil =>
    simp only [run, Option.some.injEq] at hr
    subst hr
    exact h
  | cons ev evs ih =>
    simp only [run] at hr
    cases hs : step w ev with
    | none => rw [hs] at hr; cases hr
    | some w2 =>
      rw [hs] at hr
      exact ih w2 (names_wf_step ev w w2 h hs) hr

theorem names_wf_of_freshly_probed (w : World) (h : freshly_probed w) : names_wf w :=
  ⟨probed_data, h.1, by simp [probed_data]⟩

/-- C3: in a state reached from a freshly probed device, or in any state when the identifier
is not empty: when a network `N` with the raw Name of the identifier is in `current`,
`clear_results` followed by a scan result for that identifier puts into `current` the first
element of the old `current` that carries the Name (which is `N` when no other does), leaves
the rest of the old `current` in `pending`, creates no element, and makes no call into the
element framework: the only call logged is the arming of the timer when it was idle. -/
theorem C3_same_object_reused (network : supplicant_network) (w : World) (d : wifi_data)
    (identifier : Bytes) (N : Nat) (hd : w.data = some d)
    (hi : network.identifier = some identifier)
    (hstate : identifier ≠ [] ∨ ∃ evs w0, freshly_probed w0 ∧ run evs w0 = some w)
    (hN : N ∈ d.current) (hm : match_Name w.heap identifier N = true) :
    ∃ w1 element,
      clear_results w = some w1 ∧
      element ∈ d.current ∧ match_Name w.heap identifier element = true ∧
      ((∀ q ∈ d.current, match_Name w.heap identifier q = true → q = N) → element = N) ∧
      (scan_result network w1).data =
        some { d with current := [element], pending := d.current.erase element,
                      timer := if d.timer = 0 then w.last_source + 1 else d.timer } ∧
      (scan_result network w1).heap =
        update_at (fun e => { e with available := true }) w.heap element ∧
      (scan_result network w1).heap.length = w.heap.length ∧
      (scan_result network w1).log = w1.log ∧
      w1.log = w.log ++
        (if d.timer = 0 then
          [Call.timeout_add_seconds CLEANUP_PENDING_TIMEOUT (w.last_source + 1)] else []) := by
  have hne : identifier ≠ [] := by
    rcases hstate with hne | ⟨evs, w0, h0, hr⟩
    · exact hne
    · intro hempty
      obtain ⟨d1, hd1, hnm⟩ := names_wf_run evs w0 w (names_wf_of_freshly_probed w0 h0) hr
      rw [hd] at hd1
      cases hd1
      rw [hempty, hnm N (List.mem_append_left _ hN)] at hm
      cases hm
  cases hf : d.current.find? (match_Name w.heap identifier) with
  | none =>
    rw [List.find?_eq_none] at hf
    exact absurd hm (hf N hN)
  | some element =>
    have hmem : element ∈ d.current := List.mem_of_find?_eq_some hf
    have hme : match_Name w.heap identifier element = true := List.find?_some hf
    by_cases ht : d.timer = 0
    · refine ⟨_, element, clear_results_idle w d hd ht, hmem, hme,
        fun huniq => huniq element hmem hme, ?_⟩
      have h2 := scan_result_found network
        { w with
          data := some { d with pending := d.current, current := [],
                                timer := w.last_source + 1 },
          sources := w.sources ++ [w.last_source + 1],
          last_source := w.last_source + 1,
          log := w.log ++ [Call.timeout_add_seconds CLEANUP_PENDING_TIMEOUT
                            (w.last_source + 1)] }
        { d with pending := d.current, current := [], timer := w.last_source + 1 }
        identifier element rfl hi hne hf
      rw [h2]
      simp [ht, length_update_at]
    · refine ⟨_, element, clear_results_armed w d hd ht, hmem, hme,
        fun huniq => huniq element hmem hme, ?_⟩
      have h2 := scan_result_found network
        { w with data := some { d with pending := d.current, current := [] } }
        { d with pending := d.current, current := [] }
        identifier element rfl hi hne hf
      rw [h2]
      simp [ht, length_update_at]

/-- Witness of C3: "HomeNet", seen in cycle 1 on `wlan0`, is seen again in cycle 2. -/
theorem C3_same_object_reused_witness :
    ∃ w1 element,
      clear_results after_cycle_1 = some w1 ∧
      element ∈ [0] ∧ match_Name after_cycle_1.heap HomeNet element = true ∧
      ((∀ q ∈ [0], match_Name after_cycle_1.heap HomeNet q = true → q = 0) → element = 0) ∧
      (scan_result HomeNet_result w1).data =
        some { current := [element], pending := [0].erase element,
               timer := if (0 : Nat) = 0 then after_cycle_1.last_source + 1 else 0,
               identifier := none, connected := false } ∧
      (scan_result HomeNet_result w1).heap =
        update_at (fun e => { e with available := true }) after_cycle_1.heap element ∧
      (scan_result HomeNet_result w1).heap.length = after_cycle_1.heap.length ∧
      (scan_result HomeNet_result w1).log = w1.log ∧
      w1.log = after_cycle_1.log ++
        (if (0 : Nat) = 0 then
          [Call.timeout_add_seconds CLEANUP_PENDING_TIMEOUT (after_cycle_1.last_source + 1)]
        else []) :=
  C3_same_object_reused HomeNet_result after_cycle_1
    { current := [0], pending := [], timer := 0, identifier := none, connected := false }
    HomeNet 0 rfl rfl (Or.inl (by decide)) (by decide) (by decide)

/-! ## Entries of `pending` that a new cycle overwrites -/

/-- C4, the code at the scenario: after cycle 1 saw "HomeNet" (element 0), the start of
cycle 2 moves it to `pending` and arms timer 1; the start of cycle 3 overwrites `pending`
with the empty `current` while timer 1 stays armed; when the timer fires nothing is left to
retire, so the whole log holds no unregister and no unref of element 0.  Had the timer
fired before cycle 3 began, element 0 would have been unregistered and released once. -/
theorem C4_vanished_network_not_retired :
    (run (vanished.take 2) wlan0).map (fun w => (w.data.map wifi_data.pending, w.sources)) =
      some (some [0], [1]) ∧
    (run (vanished.take 3) wlan0).map (fun w => (w.data.map wifi_data.pending, w.sources)) =
      some (some [], [1]) ∧
    (run vanished wlan0).map World.log =
      some [Call.element_create 0, Call.element_register 0 element_ref.device,
            Call.timeout_add_seconds 8 1] ∧
    (run vanished wlan0).map (fun w => match_Name w.heap HomeNet 0) = some true ∧
    (run vanished wlan0).map World.data = some (some probed_data) ∧
    (run vanished_early_timer wlan0).map World.log =
      some [Call.element_create 0, Call.element_register 0 element_ref.device,
            Call.timeout_add_seconds 8 1, Call.element_unregister 0, Call.element_unref 0,
            Call.timeout_add_seconds 8 2] := by
  refine ⟨?_, ?_, ?_, ?_, ?_, ?_⟩ <;> decide

/-- C5, the code at a state with both lists non-empty: before `clear_results` the device has
`current = [1]` ("Guest") and `pending = [0]` ("HomeNet"); after it `pending = [1]` and
`current = []`, element 0 is in neither list, and no call was made for it. -/
theorem C5_old_pending_overwritten :
    (run both_nonempty wlan0).map
        (fun w => (w.data.map wifi_data.current, w.data.map wifi_data.pending)) =
      some (some [1], some [0]) ∧
    (run (both_nonempty ++ [Event.clear_results]) wlan0).map
        (fun w => (w.data.map wifi_data.current, w.data.map wifi_data.pending)) =
      some (some [], some [1]) ∧
    (run (both_nonempty ++ [Event.clear_results]) wlan0).map World.log =
      (run both_nonempty wlan0).map World.log := by
  refine ⟨?_, ?_, ?_⟩ <;> decide

/-! ## The cleanup timer -/

theorem scan_result_frame (network : supplicant_network) (w : World) (d : wifi_data)
    (hd : w.data = some d) :
    ∃ d1, (scan_result network w).data = some d1 ∧ d1.timer = d.timer ∧
      d1.identifier = d.identifier ∧ d1.connected = d.connected ∧
      (scan_result network w).sources = w.sources ∧
      (scan_result network w).last_source = w.last_source ∧
      (scan_result network w).index = w.index := by
  cases hi : network.identifier with
  | none =>
    rw [scan_result_ignored network w (Or.inr (Or.inl hi))]
    exact ⟨d, hd, rfl, rfl, rfl, rfl, rfl, rfl⟩
  | some identifier =>
    by_cases hne : identifier = []
    · subst hne
      rw [scan_result_ignored network w (Or.inr (Or.inr hi))]
      exact ⟨d, hd, rfl, rfl, rfl, rfl, rfl, rfl⟩
    · cases hf : find_pending_element w.heap d identifier with
      | none =>
        rw [scan_result_new network w d identifier hd hi hne hf]
        exact ⟨_, rfl, rfl, rfl, rfl, rfl, rfl, rfl⟩
      | some element =>
        rw [scan_result_found network w d identifier element hd hi hne hf]
        exact ⟨_, rfl, rfl, rfl, rfl, rfl, rfl, rfl⟩

theorem state_change_frame (state : supplicant_state) (w : World) (d : wifi_data)
    (hd : w.data = some d) :
    ∃ c, (state_change state w).data = some { d with connected := c } ∧
      (state_change state w).sources = w.sources ∧
      (state_change state w).last_source = w.last_source ∧
      (state_change state w).index = w.index := by
  obtain ⟨target, hi⟩ : ∃ target, d.identifier = target := ⟨_, rfl⟩
  cases target with
  | none =>
    rw [state_change_not_found state w (fun d1 hd1 i hi1 => by
      rw [hd] at hd1; cases hd1; rw [hi] at hi1; cases hi1)]
    exact ⟨d.connected, hd, rfl, rfl, rfl⟩
  | some identifier =>
    cases hf : find_current_element w.heap d identifier with
    | none =>
      rw [state_change_not_found state w (fun d1 hd1 i hi1 => by
        rw [hd] at hd1; cases hd1; rw [hi] at hi1; cases hi1; exact hf)]
      exact ⟨d.connected, hd, rfl, rfl, rfl⟩
    | some element =>
      cases state with
      | STATE_COMPLETED =>
        obtain ⟨e, he, _⟩ := match_Name_iff.mp (List.find?_some hf)
        rw [state_change_completed w d identifier element e hd hi hf he]
        exact ⟨true, rfl, rfl, rfl, rfl⟩
      | STATE_DISCONNECTED =>
        rw [state_change_down _ w d identifier element hd hi hf (Or.inl rfl)]
        exact ⟨false, rfl, rfl, rfl, rfl⟩
      | STATE_INACTIVE =>
        rw [state_change_down _ w d identifier element hd hi hf (Or.inr rfl)]
        exact ⟨false, rfl, rfl, rfl, rfl⟩
      | STATE_OTHER code =>
        rw [state_change_other]
        exact ⟨d.connected, hd, rfl, rfl, rfl⟩

theorem timer_wf_of_freshly_probed (w : World) (h : freshly_probed w) : timer_wf w :=
  ⟨probed_data, h.1, by simp [h.2, probed_data]⟩

theorem timer_wf_step (ev : Event) (w w1 : World) (h : timer_wf w) (hs : step w ev = some w1) :
    timer_wf w1 := by
  obtain ⟨d, hd, hsrc⟩ := h
  cases ev with
  | clear_results =>
    by_cases ht : d.timer = 0
    · simp only [step, clear_results_idle w d hd ht, Option.some.injEq] at hs
      subst hs
      refine ⟨_, rfl, ?_⟩
      simp [hsrc, ht]
    · simp only [step, clear_results_armed w d hd ht, Option.some.injEq] at hs
      subst hs
      exact ⟨_, rfl, hsrc⟩
  | scan_result network =>
    simp only [step, Option.some.injEq] at hs
    subst hs
    obtain ⟨d1, hd1, ht1, _, _, hs1, _, _⟩ := scan_result_frame network w d hd
    exact ⟨d1, hd1, by rw [hs1, ht1]; exact hsrc⟩
  | cleanup_pending id =>
    simp only [step, timeout_dispatch, cleanup_pending_eq w d hd] at hs
    by_cases hid : id ∈ w.sources
    · simp only [hid, if_true, Option.some.injEq] at hs
      subst hs
      refine ⟨_, rfl, ?_⟩
      by_cases ht : d.timer = 0
      · rw [hsrc] at hid; simp [ht] at hid
      · rw [hsrc] at hid
        simp only [ht, if_false, List.mem_singleton] at hid
        simp [hsrc, ht, hid]
    · simp only [hid, if_false, Option.some.injEq] at hs
      subst hs
      exact ⟨d, hd, hsrc⟩
  | state_change state =>
    simp only [step, Option.some.injEq] at hs
    subst hs
    obtain ⟨c, hd1, hs1, _, _⟩ := state_change_frame state w d hd
    exact ⟨_, hd1, by rw [hs1]; exact hsrc⟩
  | wifi_disable =>
    simp only [step, wifi_disable_eq w d hd, Option.map_some', Option.some.injEq] at hs
    subst hs
    refine ⟨_, rfl, ?_⟩
    by_cases ht : d.timer = 0
    · simp [hsrc, ht]
    · have hpos : d.timer > 0 := Nat.pos_of_ne_zero ht
      simp [hsrc, ht, hpos]
  | network_enable element =>
    simp only [step] at hs
    cases hr : network_enable element w with
    | none => rw [hr] at hs; cases hs
    | some r =>
      rw [hr] at hs
      simp only [Option.map_some', Option.some.injEq] at hs
      obtain ⟨_, hsr, _, _, hdata⟩ := network_enable_frame element w r.2 r.1 hr
      obtain ⟨i, hi⟩ := hdata d hd
      subst hs
      exact ⟨_, hi, by rw [hsr]; exact hsrc⟩

theorem timer_wf_run (evs : List Event) (w w1 : World) (h : timer_wf w)
    (hr : run evs w = some w1) : timer_wf w1 := by
  induction evs generalizing w with
  | nil =>
    simp only [run, Option.some.injEq] at hr
    subst hr
    exact h
  | cons ev evs ih =>
    simp only [run] at hr
    cases hs : step w ev with
    | none => rw [hs] at hr; cases hr
    | some w2 =>
      rw [hs] at hr
      exact ih w2 (timer_wf_step ev w w2 h hs) hr

/-- C6: on a device whose timer handle is not 0, `clear_results` only moves `current` to
`pending`: the handle, the outstanding sources and the log stay as they were, so no second
timer is armed.  And in every state reached from a freshly probed device the outstanding
cleanup sources are exactly the one named by the handle, or none when the handle is 0: at
most one at any time. -/
theorem C6_single_cleanup_timer (w : World) (d : wifi_data) (hd : w.data = some d)
    (ht : d.timer ≠ 0) (evs : List Event) (w0 : World) (h0 : freshly_probed w0) :
    (∃ w1, clear_results w = some w1 ∧
      w1.data = some { d with pending := d.current, current := [] } ∧
      w1.sources = w.sources ∧ w1.log = w.log ∧ w1.last_source = w.last_source) ∧
    (∀ w1, run evs w0 = some w1 →
      ∃ d1, w1.data = some d1 ∧
        w1.sources = (if d1.timer = 0 then [] else [d1.timer]) ∧ w1.sources.length ≤ 1) := by
  refine ⟨⟨_, clear_results_armed w d hd ht, rfl, rfl, rfl, rfl⟩, fun w1 hr => ?_⟩
  obtain ⟨d1, hd1, hs1⟩ := timer_wf_run evs w0 w1 (timer_wf_of_freshly_probed w0 h0) hr
  refine ⟨d1, hd1, hs1, ?_⟩
  rw [hs1]
  by_cases h : d1.timer = 0 <;> simp [h]

/-- Witness of C6: `clear_results` on the device with timer 1 armed, and the invariant over
three scan cycles of `wlan0`. -/
theorem C6_single_cleanup_timer_witness :
    run [Event.scan_result HomeNet_result, Event.clear_results] wlan0 = some armed_device ∧
    armed_device.data = some armed_data ∧ armed_data.timer ≠ 0 ∧ freshly_probed wlan0 ∧
    ((∃ w1, clear_results armed_device = some w1 ∧
      w1.data = some { armed_data with pending := armed_data.current, current := [] } ∧
      w1.sources = armed_device.sources ∧ w1.log = armed_device.log ∧
      w1.last_source = armed_device.last_source) ∧
    (∀ w1, run seen_twice wlan0 = some w1 →
      ∃ d1, w1.data = some d1 ∧
        w1.sources = (if d1.timer = 0 then [] else [d1.timer]) ∧ w1.sources.length ≤ 1)) :=
  ⟨by decide, rfl, by decide, ⟨rfl, rfl⟩,
    C6_single_cleanup_timer armed_device armed_data rfl (by decide) seen_twice wlan0 ⟨rfl, rfl⟩⟩

theorem count_unregister_retire_calls (l : List Nat) (e : Nat) :
    (retire_calls l).count (Call.element_unregister e) = l.count e := by
  induction l with
  | nil => rfl
  | cons a l ih =>
    have hcons : retire_calls (a :: l) =
        Call.element_unregister a :: Call.element_unref a :: retire_calls l := by
      simp [retire_calls, List.flatMap_cons]
    rw [hcons, List.count_cons, List.count_cons, ih, List.count_cons]
    by_cases h : a = e <;> simp [h]

theorem count_unref_retire_calls (l : List Nat) (e : Nat) :
    (retire_calls l).count (Call.element_unref e) = l.count e := by
  induction l with
  | nil => rfl
  | cons a l ih =>
    have hcons : retire_calls (a :: l) =
        Call.element_unregister a :: Call.element_unref a :: retire_calls l := by
      simp [retire_calls, List.flatMap_cons]
    rw [hcons, List.count_cons, List.count_cons, ih, List.count_cons]
    by_cases h : a = e <;> simp [h]

/-- C7: on a device with driver data, `cleanup_pending` returns FALSE, empties `pending`,
sets the timer handle to 0 and leaves `current`, `identifier`, `connected` and the heap as
they were; the calls it makes are an unregister followed by an unref for each entry of
`pending` in order, so each element is unregistered and released as many times as `pending`
lists it: once for an element listed once. -/
theorem C7_cleanup_pending_retires_pending (w : World) (d : wifi_data)
    (hd : w.data = some d) :
    cleanup_pending w =
      some (false, { w with data := some { d with pending := [], timer := 0 },
                            log := w.log ++ retire_calls d.pending }) ∧
    (∀ e, (retire_calls d.pending).count (Call.element_unregister e) = d.pending.count e ∧
      (retire_calls d.pending).count (Call.element_unref e) = d.pending.count e) ∧
    (∀ e, e ∈ d.pending → d.pending.Nodup →
      (retire_calls d.pending).count (Call.element_unregister e) = 1 ∧
      (retire_calls d.pending).count (Call.element_unref e) = 1) := by
  refine ⟨cleanup_pending_eq w d hd, fun e =>
    ⟨count_unregister_retire_calls _ e, count_unref_retire_calls _ e⟩, fun e he hn => ?_⟩
  rw [count_unregister_retire_calls, count_unref_retire_calls,
    List.count_eq_one_of_mem hn he]
  exact ⟨rfl, rfl⟩

/-- Witness of C7: the timer fires on the device whose `pending` holds "HomeNet". -/
theorem C7_cleanup_pending_retires_pending_witness :
    armed_device.data = some armed_data ∧
    (cleanup_pending armed_device =
      some (false, { armed_device with
        data := some { armed_data with pending := [], timer := 0 },
        log := armed_device.log ++ retire_calls armed_data.pending }) ∧
    (∀ e, (retire_calls armed_data.pending).count (Call.element_unregister e) =
        armed_data.pending.count e ∧
      (retire_calls armed_data.pending).count (Call.element_unref e) =
        armed_data.pending.count e) ∧
    (∀ e, e ∈ armed_data.pending → armed_data.pending.Nodup →
      (retire_calls armed_data.pending).count (Call.element_unregister e) = 1 ∧
      (retire_calls armed_data.pending).count (Call.element_unref e) = 1)) :=
  ⟨rfl, C7_cleanup_pending_retires_pending armed_device armed_data rfl⟩

/-! ## State changes of the supplicant -/

/-- Counterexample to C8: the device is connected to "HomeNet" and a new cycle has moved that
network to `pending`; a disconnected or inactive notification then leaves the device as it
is, `connected` still TRUE. -/
theorem C8_counterexample_still_connected :
    (run connected_rescan wlan0).map World.data = some (some connected_rescan_data) ∧
    connected_rescan_data.connected = true ∧
    (run (connected_rescan ++ [Event.state_change supplicant_state.STATE_DISCONNECTED])
        wlan0).map World.data = some (some connected_rescan_data) ∧
    (run (connected_rescan ++ [Event.state_change supplicant_state.STATE_INACTIVE])
        wlan0).map World.data = some (some connected_rescan_data) := by
  refine ⟨?_, ?_, ?_, ?_⟩ <;> decide

/-- C8, amended: on a connected device, a disconnected or inactive notification sets
`connected` to FALSE, and changes nothing else, when the target identifier is set and
matches the raw Name of a network in `current`; when no target is set or no network in
`current` carries it, the notification changes nothing and `connected` stays TRUE. -/
theorem C8_disconnect_needs_target_in_current (state : supplicant_state) (w : World)
    (d : wifi_data) (hd : w.data = some d) (hc : d.connected = true)
    (hs : state = supplicant_state.STATE_DISCONNECTED
      ∨ state = supplicant_state.STATE_INACTIVE) :
    (∀ identifier, d.identifier = some identifier →
      (∃ p ∈ d.current, match_Name w.heap identifier p = true) →
      state_change state w = { w with data := some { d with connected := false } }) ∧
    ((∀ identifier, d.identifier = some identifier →
        ∀ p ∈ d.current, match_Name w.heap identifier p = false) →
      state_change state w = w ∧ (state_change state w).data = some d ∧
        d.connected = true) := by
  constructor
  · intro identifier hi ⟨p, hp, hm⟩
    cases hf : find_current_element w.heap d identifier with
    | none =>
      unfold find_current_element at hf
      rw [List.find?_eq_none] at hf
      exact absurd hm (hf p hp)
    | some element => exact state_change_down state w d identifier element hd hi hf hs
  · intro hno
    have h := state_change_not_found state w (fun d1 hd1 i hi1 => by
      rw [hd] at hd1
      cases hd1
      unfold find_current_element
      rw [List.find?_eq_none]
      intro x hx
      simp [hno i hi1 x hx])
    exact ⟨h, by rw [h]; exact hd, hc⟩

/-- Witness of C8, amended: a disconnected notification on the device connected to
"HomeNet" while that network is in `current`. -/
theorem C8_disconnect_needs_target_in_current_witness :
    connected_device.data =
      some { current := [0], pending := [], timer := 0, identifier := some HomeNet,
             connected := true } ∧
    ((∀ identifier, some HomeNet = some identifier →
      (∃ p ∈ [0], match_Name connected_device.heap identifier p = true) →
      state_change supplicant_state.STATE_DISCONNECTED connected_device =
        { connected_device with
          data := some { current := [0], pending := [], timer := 0,
                         identifier := some HomeNet, connected := false } }) ∧
    ((∀ identifier, some HomeNet = some identifier →
        ∀ p ∈ [0], match_Name connected_device.heap identifier p = false) →
      state_change supplicant_state.STATE_DISCONNECTED connected_device = connected_device ∧
        (state_change supplicant_state.STATE_DISCONNECTED connected_device).data =
          some { current := [0], pending := [], timer := 0, identifier := some HomeNet,
                 connected := true } ∧
        true = true)) :=
  ⟨rfl, C8_disconnect_needs_target_in_current supplicant_state.STATE_DISCONNECTED
    connected_device
    { current := [0], pending := [], timer := 0, identifier := some HomeNet, connected := true }
    rfl rfl (Or.inl rfl)⟩

/-- C9: when no network in `current` carries the target identifier as its raw Name, or no
target identifier is set, a completed notification changes nothing: `connected` and the rest
of the driver data, the heap and the log stay as they were, so no element is created or
registered. -/
theorem C9_completed_without_target (w : World) (d : wifi_data) (hd : w.data = some d)
    (hno : ∀ identifier, d.identifier = some identifier →
      ∀ p ∈ d.current, match_Name w.heap identifier p = false) :
    state_change supplicant_state.STATE_COMPLETED w = w := by
  refine state_change_not_found _ w (fun d1 hd1 i hi1 => ?_)
  rw [hd] at hd1
  cases hd1
  unfold find_current_element
  rw [List.find?_eq_none]
  intro x hx
  simp [hno i hi1 x hx]

/-- Witness of C9: a completed notification on the device whose target "HomeNet" has been
moved to `pending` by a new cycle. -/
theorem C9_completed_without_target_witness :
    (∀ identifier, connected_rescan_data.identifier = some identifier →
      ∀ p ∈ connected_rescan_data.current,
        match_Name armed_device.heap identifier p = false) ∧
    state_change supplicant_state.STATE_COMPLETED
        { armed_device with data := some connected_rescan_data } =
      { armed_device with data := some connected_rescan_data } :=
  ⟨fun _ _ p hp => by simp [connected_rescan_data] at hp,
    C9_completed_without_target { armed_device with data := some connected_rescan_data }
      connected_rescan_data rfl (fun _ _ p hp => by simp [connected_rescan_data] at hp)⟩

/-- C10: when the target identifier matches the raw Name of a network in `current`, a
completed notification sets `connected`, appends one new element to the heap, of type DHCP
with the index of the first matching network of `current` and that network as its parent,
and logs its creation and its registration under that network; `current`, `pending`,
`timer`, `identifier` and the older elements are unchanged. -/
theorem C10_completed_with_target (w : World) (d : wifi_data) (identifier : Bytes)
    (hd : w.data = some d) (hi : d.identifier = some identifier)
    (hex : ∃ p ∈ d.current, match_Name w.heap identifier p = true) :
    ∃ before element after e,
      d.current = before ++ element :: after ∧
      (∀ q ∈ before, match_Name w.heap identifier q = false) ∧
      match_Name w.heap identifier element = true ∧
      w.heap[element]? = some e ∧
      state_change supplicant_state.STATE_COMPLETED w =
        { w with data := some { d with connected := true },
                 heap := w.heap ++ [new_dhcp e.index element],
                 log := w.log ++ [Call.element_create w.heap.length,
                   Call.element_register w.heap.length (element_ref.object element)] } ∧
      (new_dhcp e.index element).type = element_type.DHCP ∧
      (new_dhcp e.index element).index = e.index ∧
      (new_dhcp e.index element).parent = some (element_ref.object element) := by
  obtain ⟨p, hp, hm⟩ := hex
  cases hf : find_current_element w.heap d identifier with
  | none =>
    unfold find_current_element at hf
    rw [List.find?_eq_none] at hf
    exact absurd hm (hf p hp)
  | some element =>
    have hf1 := hf
    unfold find_current_element at hf1
    obtain ⟨hme, before, after, hsplit, hbefore⟩ := List.find?_eq_some.mp hf1
    obtain ⟨e, he, _⟩ := match_Name_iff.mp hme
    exact ⟨before, element, after, e, hsplit, fun q hq => by simpa using hbefore q hq, hme, he,
      state_change_completed w d identifier element e hd hi hf he, rfl, rfl, rfl⟩

/-- Witness of C10: a completed notification on the device that asked to connect to
"HomeNet" while that network is in `current`. -/
theorem C10_completed_with_target_witness :
    (∃ p ∈ [0], match_Name connecting_device.heap HomeNet p = true) ∧
    (∃ before element after e,
      [0] = before ++ element :: after ∧
      (∀ q ∈ before, match_Name connecting_device.heap HomeNet q = false) ∧
      match_Name connecting_device.heap HomeNet element = true ∧
      connecting_device.heap[element]? = some e ∧
      state_change supplicant_state.STATE_COMPLETED connecting_device =
        { connecting_device with
          data := some { current := [0], pending := [], timer := 0,
                         identifier := some HomeNet, connected := true },
          heap := connecting_device.heap ++ [new_dhcp e.index element],
          log := connecting_device.log ++ [Call.element_create connecting_device.heap.length,
            Call.element_register connecting_device.heap.length
              (element_ref.object element)] } ∧
      (new_dhcp e.index element).type = element_type.DHCP ∧
      (new_dhcp e.index element).index = e.index ∧
      (new_dhcp e.index element).parent = some (element_ref.object element)) :=
  ⟨⟨0, by decide, by decide⟩,
    C10_completed_with_target connecting_device
      { current := [0], pending := [], timer := 0, identifier := some HomeNet,
        connected := false }
      HomeNet rfl rfl ⟨0, by decide, by decide⟩⟩

/-! ## A connect request on a connected device -/

/-- C11: for a network element with the static properties "Name" and "WiFi.SSID" whose parent
is the device, when the device is marked connected `network_enable` returns `-EBUSY` (-16)
and leaves everything as it was: the driver data with its target identifier, flag, lists and
timer, the heap, and the log, so no connect request goes to the supplicant. -/
theorem C11_network_enable_busy (element : Nat) (w : World) (e : connman_element)
    (name ssid : Bytes) (d : wifi_data) (he : w.heap[element]? = some e)
    (hn : e.Name = some name) (hs : e.SSID = some ssid)
    (hp : e.parent = some element_ref.device) (hd : w.data = some d)
    (hc : d.connected = true) :
    network_enable element w = some (Int.neg EBUSY, w) ∧ Int.neg EBUSY = -16 := by
  refine ⟨?_, rfl⟩
  simp [network_enable, he, hn, hs, hp, hd, hc]

/-- Witness of C11: a connect request for "HomeNet" on the device already connected to it. -/
theorem C11_network_enable_busy_witness :
    connected_device.heap[0]? = some (new_network 3 HomeNet_result HomeNet) ∧
    (network_enable 0 connected_device = some (Int.neg EBUSY, connected_device) ∧
      Int.neg EBUSY = -16) :=
  ⟨rfl, C11_network_enable_busy 0 connected_device (new_network 3 HomeNet_result HomeNet)
    HomeNet HomeNet
    { current := [0], pending := [], timer := 0, identifier := some HomeNet, connected := true }
    rfl rfl rfl rfl rfl rfl⟩

/-! ## What a new network is given -/

/-- C12: for a scan result with a non-empty identifier that is not found in `pending`, the
element created at the next free position gets its security class by the first flag set in
the order rsn, wpa, wep: "wpa2" whenever rsn is set, "wpa" for wpa without rsn, "wep" for wep
alone, "none" when no flag is set. -/
theorem C12_security_priority (network : supplicant_network) (w : World) (d : wifi_data)
    (identifier : Bytes) (hd : w.data = some d) (hi : network.identifier = some identifier)
    (hne : identifier ≠ []) (hf : find_pending_element w.heap d identifier = none) :
    ∃ e, (scan_result network w).heap[w.heap.length]? = some e ∧
      (scan_result network w).heap.length = w.heap.length + 1 ∧
      (network.has_rsn = true → e.security = some "wpa2") ∧
      (network.has_rsn = false → network.has_wpa = true → e.security = some "wpa") ∧
      (network.has_rsn = false → network.has_wpa = false → network.has_wep = true →
        e.security = some "wep") ∧
      (network.has_rsn = false → network.has_wpa = false → network.has_wep = false →
        e.security = some "none") := by
  rw [scan_result_new network w d identifier hd hi hne hf]
  refine ⟨new_network w.index network identifier, by simp, by simp, ?_, ?_, ?_, ?_⟩
  · intro h; simp [new_network, scan_result_security, h]
  · intro h1 h2; simp [new_network, scan_result_security, h1, h2]
  · intro h1 h2 h3; simp [new_network, scan_result_security, h1, h2, h3]
  · intro h1 h2 h3; simp [new_network, scan_result_security, h1, h2, h3]

/-- Witness of C12: "Guest", reported with WPA and without RSN, on the fresh device. -/
theorem C12_security_priority_witness :
    ∃ e, (scan_result Guest_result wlan0).heap[wlan0.heap.length]? = some e ∧
      (scan_result Guest_result wlan0).heap.length = wlan0.heap.length + 1 ∧
      (Guest_result.has_rsn = true → e.security = some "wpa2") ∧
      (Guest_result.has_rsn = false → Guest_result.has_wpa = true →
        e.security = some "wpa") ∧
      (Guest_result.has_rsn = false → Guest_result.has_wpa = false →
        Guest_result.has_wep = true → e.security = some "wep") ∧
      (Guest_result.has_rsn = false → Guest_result.has_wpa = false →
        Guest_result.has_wep = false → e.security = some "none") :=
  C12_security_priority Guest_result wlan0 probed_data Guest rfl rfl (by decide) rfl

theorem scan_result_char_eq_spec (c : Nat) : scan_result_char c = spec_key_char c := by
  simp only [scan_result_char, spec_key_char, g_ascii_isprint, g_ascii_tolower,
    spec_whitespace, spec_punctuation, spec_printable, spec_lowercase, decide_eq_true_eq,
    decide_eq_false_iff_not]
  split_ifs <;> omega

/-- C13: for a scan result with a non-empty identifier that is not found in `pending`, the
name of the created element is a key as long as the identifier whose byte at each position
is `_` where the identifier has whitespace, one of `.` `-` `+` `!` `?` `(` `)` or a byte
that is not printable ASCII, and the lowercased byte otherwise; the static property "Name"
of the element is the identifier itself. -/
theorem C13_key_normalization (network : supplicant_network) (w : World) (d : wifi_data)
    (identifier : Bytes) (hd : w.data = some d) (hi : network.identifier = some identifier)
    (hne : identifier ≠ []) (hf : find_pending_element w.heap d identifier = none) :
    ∃ e key, (scan_result network w).heap[w.heap.length]? = some e ∧
      e.name = some key ∧ key.length = identifier.length ∧
      (∀ (i c : Nat), identifier[i]? = some c → key[i]? = some (spec_key_char c)) ∧
      e.Name = some identifier := by
  rw [scan_result_new network w d identifier hd hi hne hf]
  refine ⟨new_network w.index network identifier, identifier.map scan_result_char,
    by simp, rfl, by simp, ?_, rfl⟩
  intro i c hc
  rw [List.getElem?_map, hc]
  simp [scan_result_char_eq_spec]

/-- Witness of C13: "Home Net" on the fresh device gets the key "home_net". -/
theorem C13_key_normalization_witness :
    Home_Net.map scan_result_char = [104, 111, 109, 101, 95, 110, 101, 116] ∧
    (∃ e key, (scan_result Home_Net_result wlan0).heap[wlan0.heap.length]? = some e ∧
      e.name = some key ∧ key.length = Home_Net.length ∧
      (∀ (i c : Nat), Home_Net[i]? = some c → key[i]? = some (spec_key_char c)) ∧
      e.Name = some Home_Net) :=
  ⟨by decide,
    C13_key_normalization Home_Net_result wlan0 probed_data Home_Net rfl rfl (by decide) rfl⟩

/-! ## A result for a network that waits in `pending` -/

/-- Counterexample to C14: "HomeNet" is created with quality 70 and RSN, a new cycle moves it
to `pending`, and a result for "HomeNet" with quality 30 moves it back to `current`; its
static property "WiFi.Strength" is still 70. -/
theorem C14_counterexample_strength_kept :
    HomeNet_weaker.quality = 30 ∧
    (run [Event.scan_result HomeNet_result, Event.clear_results] wlan0).map
        (fun w => (w.data.map wifi_data.pending, w.heap.map connman_element.Strength)) =
      some (some [0], [some 70]) ∧
    (run [Event.scan_result HomeNet_result, Event.clear_results,
          Event.scan_result HomeNet_weaker] wlan0).map
        (fun w => (w.data.map wifi_data.current, w.data.map wifi_data.pending,
          w.heap.map connman_element.Strength, w.heap.map connman_element.available)) =
      some (some [0], some [], [some 70], [true]) := by
  refine ⟨?_, ?_, ?_⟩ <;> decide

/-- C14, amended: in a state reached from a freshly probed device, or in any state when the
identifier is not empty: when a network with the raw Name of the identifier is in `pending`,
a scan result for it takes the first such element out of `pending`, appends it to `current`
and marks it available; every other field of the element, its "WiFi.Strength" and its
security class among them, stays as it was, whatever quality and flags the result reports,
and nothing else changes. -/
theorem C14_found_in_pending_moved (network : supplicant_network) (w : World) (d : wifi_data)
    (identifier : Bytes) (N : Nat) (hd : w.data = some d)
    (hi : network.identifier = some identifier)
    (hstate : identifier ≠ [] ∨ ∃ evs w0, freshly_probed w0 ∧ run evs w0 = some w)
    (hN : N ∈ d.pending) (hm : match_Name w.heap identifier N = true) :
    ∃ before element after e,
      d.pending = before ++ element :: after ∧
      (∀ q ∈ before, match_Name w.heap identifier q = false) ∧
      match_Name w.heap identifier element = true ∧
      w.heap[element]? = some e ∧
      scan_result network w =
        { w with data := some { d with pending := d.pending.erase element,
                                       current := d.current ++ [element] },
                 heap := update_at (fun x => { x with available := true }) w.heap element } ∧
      (scan_result network w).heap[element]? = some { e with available := true } ∧
      (∀ x, (scan_result network w).heap[element]? = some x →
        x.available = true ∧ x.Strength = e.Strength ∧ x.security = e.security) := by
  have hne : identifier ≠ [] := by
    rcases hstate with hne | ⟨evs, w0, h0, hr⟩
    · exact hne
    · intro hempty
      obtain ⟨d1, hd1, hnm⟩ := names_wf_run evs w0 w (names_wf_of_freshly_probed w0 h0) hr
      rw [hd] at hd1
      cases hd1
      rw [hempty, hnm N (List.mem_append_right _ hN)] at hm
      cases hm
  cases hf : find_pending_element w.heap d identifier with
  | none =>
    unfold find_pending_element at hf
    rw [List.find?_eq_none] at hf
    exact absurd hm (hf N hN)
  | some element =>
    have hf1 := hf
    unfold find_pending_element at hf1
    obtain ⟨hme, before, after, hsplit, hbefore⟩ := List.find?_eq_some.mp hf1
    obtain ⟨e, he, _⟩ := match_Name_iff.mp hme
    have hres := scan_result_found network w d identifier element hd hi hne hf
    have hget : (scan_result network w).heap[element]? = some { e with available := true } := by
      rw [hres]
      simp only []
      rw [getElem?_update_at, he]
      simp
    refine ⟨before, element, after, e, hsplit, fun q hq => by simpa using hbefore q hq, hme, he,
      hres, hget, fun x hx => ?_⟩
    rw [hget] at hx
    cases hx
    exact ⟨rfl, rfl, rfl⟩

/-- Witness of C14, amended: the result for "HomeNet" with quality 30 on the device whose
`pending` holds "HomeNet". -/
theorem C14_found_in_pending_moved_witness :
    ∃ before element after e,
      armed_data.pending = before ++ element :: after ∧
      (∀ q ∈ before, match_Name armed_device.heap HomeNet q = false) ∧
      match_Name armed_device.heap HomeNet element = true ∧
      armed_device.heap[element]? = some e ∧
      scan_result HomeNet_weaker armed_device =
        { armed_device with
          data := some { armed_data with pending := armed_data.pending.erase element,
                                         current := armed_data.current ++ [element] },
          heap := update_at (fun x => { x with available := true })
            armed_device.heap element } ∧
      (scan_result HomeNet_weaker armed_device).heap[element]? =
        some { e with available := true } ∧
      (∀ x, (scan_result HomeNet_weaker armed_device).heap[element]? = some x →
        x.available = true ∧ x.Strength = e.Strength ∧ x.security = e.security) :=
  C14_found_in_pending_moved HomeNet_weaker armed_device armed_data HomeNet 0 rfl rfl
    (Or.inl (by decide)) (by decide) (by decide)

/-! ## Results that are ignored, and results that only share a key -/

/-- C15: a scan result whose identifier is `NULL` or the empty string changes nothing: the
driver data with its lists, timer, target and flag, the heap and the log all stay as they
were, so no element is created, registered or unregistered. -/
theorem C15_empty_identifier_ignored (network : supplicant_network) (w : World)
    (h : network.identifier = none ∨ network.identifier = some []) :
    scan_result network w = w :=
  scan_result_ignored network w (Or.inr h)

/-- Witness of C15: a result with the empty identifier on the device whose `pending` holds
"HomeNet". -/
theorem C15_empty_identifier_ignored_witness :
    scan_result { HomeNet_result with identifier := some [] } armed_device = armed_device :=
  C15_empty_identifier_ignored { HomeNet_result with identifier := some [] } armed_device
    (Or.inr rfl)

theorem scan_result_places (network : supplicant_network) (w : World) (d : wifi_data)
    (identifier : Bytes) (hd : w.data = some d) (hi : network.identifier = some identifier)
    (hne : identifier ≠ []) :
    ∃ p d1, (scan_result network w).data = some d1 ∧ d1.current = d.current ++ [p] ∧
      match_Name (scan_result network w).heap identifier p = true ∧
      (∀ q other, match_Name w.heap other q = true →
        match_Name (scan_result network w).heap other q = true) := by
  cases hf : find_pending_element w.heap d identifier with
  | none =>
    rw [scan_result_new network w d identifier hd hi hne hf]
    refine ⟨w.heap.length, _, rfl, rfl, ?_, fun q other hq => ?_⟩
    · simp only []
      rw [match_Name_append_new]
      simp [new_network]
    · simp only []
      rw [match_Name_append _ _ _ _ (match_Name_lt hq)]
      exact hq
  | some element =>
    rw [scan_result_found network w d identifier element hd hi hne hf]
    refine ⟨element, _, rfl, rfl, ?_, fun q other hq => ?_⟩
    · simp only []
      rw [match_Name_available]
      exact List.find?_some hf
    · simp only []
      rw [match_Name_available]
      exact hq

/-- C16: for two distinct non-empty identifiers `a` and `b`, whether or not their keys are
equal, a scan result for `a` followed by one for `b` appends two different element pointers
to `current`; the first element carries the raw Name `a` and the second the raw Name `b`.
The lookup compares the raw Name only. -/
theorem C16_same_key_distinct_networks (na nb : supplicant_network) (w : World) (d : wifi_data)
    (a b : Bytes) (hd : w.data = some d) (ha : na.identifier = some a)
    (hb : nb.identifier = some b) (hane : a ≠ []) (hbne : b ≠ []) (hab : a ≠ b) :
    ∃ pa pb d2 ea eb,
      (scan_result nb (scan_result na w)).data = some d2 ∧
      d2.current = d.current ++ [pa, pb] ∧ pa ≠ pb ∧
      (scan_result nb (scan_result na w)).heap[pa]? = some ea ∧ ea.Name = some a ∧
      (scan_result nb (scan_result na w)).heap[pb]? = some eb ∧ eb.Name = some b := by
  obtain ⟨pa, d1, hd1, hc1, hma, _⟩ := scan_result_places na w d a hd ha hane
  obtain ⟨pb, d2, hd2, hc2, hmb, hkeep⟩ :=
    scan_result_places nb (scan_result na w) d1 b hd1 hb hbne
  obtain ⟨ea, hea, hna⟩ := match_Name_iff.mp (hkeep pa a hma)
  obtain ⟨eb, heb, hnb⟩ := match_Name_iff.mp hmb
  refine ⟨pa, pb, d2, ea, eb, hd2, by rw [hc2, hc1]; simp, ?_, hea, hna, heb, hnb⟩
  intro hp
  rw [hp, heb] at hea
  cases hea
  rw [hnb] at hna
  exact hab (Option.some.inj hna).symm

/-- Witness of C16: "Home Net" and "home.net" have the same key "home_net" and become two
networks on the fresh device. -/
theorem C16_same_key_distinct_networks_witness :
    Home_Net.map scan_result_char = home_dot_net.map scan_result_char ∧
    (∃ pa pb d2 ea eb,
      (scan_result home_dot_net_result (scan_result Home_Net_result wlan0)).data = some d2 ∧
      d2.current = probed_data.current ++ [pa, pb] ∧ pa ≠ pb ∧
      (scan_result home_dot_net_result (scan_result Home_Net_result wlan0)).heap[pa]? =
        some ea ∧ ea.Name = some Home_Net ∧
      (scan_result home_dot_net_result (scan_result Home_Net_result wlan0)).heap[pb]? =
        some eb ∧ eb.Name = some home_dot_net) :=
  ⟨by decide,
    C16_same_key_distinct_networks Home_Net_result home_dot_net_result wlan0 probed_data
      Home_Net home_dot_net rfl rfl rfl (by decide) (by decide) (by decide)⟩

/-! ## The device list -/

/-- C18: when the target network is found in `current`, a notification whose state is none
of completed, disconnected and inactive changes nothing: the driver data, the heap and the
log stay as they were, so no element is created. -/
theorem C18_other_state_ignored (state : supplicant_state) (w : World) (d : wifi_data)
    (identifier : Bytes) (hd : w.data = some d) (hi : d.identifier = some identifier)
    (hfound : ∃ p ∈ d.current, match_Name w.heap identifier p = true)
    (h1 : state ≠ supplicant_state.STATE_COMPLETED)
    (h2 : state ≠ supplicant_state.STATE_DISCONNECTED)
    (h3 : state ≠ supplicant_state.STATE_INACTIVE) :
    state_change state w = w ∧ (state_change state w).data = some d ∧
      find_current_element w.heap d identifier ≠ none := by
  have hne : find_current_element w.heap d identifier ≠ none := by
    obtain ⟨p, hp, hm⟩ := hfound
    intro hf
    unfold find_current_element at hf
    rw [List.find?_eq_none] at hf
    exact hf p hp hm
  cases hf : find_current_element w.heap d identifier with
  | none => exact absurd hf hne
  | some element =>
    have hsame : state_change state w = w := by
      simp [state_change, hd, hi, hf, h1, h2, h3]
    rw [hsame]
    exact ⟨rfl, hd, by simp⟩

/-- Witness of C18: a notification of another state on the device connected to "HomeNet",
which is in `current`. -/
theorem C18_other_state_ignored_witness :
    (∃ p ∈ [0], match_Name connected_device.heap HomeNet p = true) ∧
    (state_change (supplicant_state.STATE_OTHER 2) connected_device = connected_device ∧
      (state_change (supplicant_state.STATE_OTHER 2) connected_device).data =
        some { current := [0], pending := [], timer := 0, identifier := some HomeNet,
               connected := true } ∧
      find_current_element connected_device.heap
        { current := [0], pending := [], timer := 0, identifier := some HomeNet,
          connected := true } HomeNet ≠ none) :=
  ⟨⟨0, by decide, by decide⟩,
    C18_other_state_ignored (supplicant_state.STATE_OTHER 2) connected_device
      { current := [0], pending := [], timer := 0, identifier := some HomeNet,
        connected := true }
      HomeNet rfl rfl ⟨0, by decide, by decide⟩ (by decide) (by decide) (by decide)⟩

/-! ## Disabling the device -/

theorem scan_result_sources (network : supplicant_network) (w : World) :
    (scan_result network w).sources = w.sources := by
  cases hd : w.data with
  | none => rw [scan_result_ignored network w (Or.inl hd)]
  | some d =>
    obtain ⟨_, _, _, _, _, hs, _, _⟩ := scan_result_frame network w d hd
    exact hs

theorem state_change_sources (state : supplicant_state) (w : World) :
    (state_change state w).sources = w.sources := by
  cases hd : w.data with
  | none => rw [state_change_not_found state w (fun d hd1 => by rw [hd] at hd1; cases hd1)]
  | some d =>
    obtain ⟨_, _, hs, _, _⟩ := state_change_frame state w d hd
    exact hs

theorem sources_empty_step (ev : Event) (w w1 : World) (hs : step w ev = some w1)
    (hev : ev ≠ Event.clear_results) (hsrc : w.sources = []) : w1.sources = [] := by
  cases ev with
  | clear_results => exact absurd rfl hev
  | scan_result network =>
    simp only [step, Option.some.injEq] at hs
    subst hs
    rw [scan_result_sources, hsrc]
  | cleanup_pending id =>
    simp only [step, timeout_dispatch, hsrc, List.not_mem_nil, if_false,
      Option.some.injEq] at hs
    subst hs
    exact hsrc
  | state_change state =>
    simp only [step, Option.some.injEq] at hs
    subst hs
    rw [state_change_sources, hsrc]
  | wifi_disable =>
    simp only [step] at hs
    cases hd : w.data with
    | none => simp [wifi_disable, hd] at hs
    | some d =>
      simp only [wifi_disable_eq w d hd, Option.map_some', Option.some.injEq] at hs
      subst hs
      simp only [hsrc]
      split <;> simp
  | network_enable element =>
    simp only [step] at hs
    cases hr : network_enable element w with
    | none => rw [hr] at hs; cases hs
    | some r =>
      rw [hr] at hs
      simp only [Option.map_some', Option.some.injEq] at hs
      obtain ⟨_, hsr, _, _, _⟩ := network_enable_frame element w r.2 r.1 hr
      subst hs
      rw [hsr, hsrc]

theorem sources_empty_run (evs : List Event) (w w1 : World) (hr : run evs w = some w1)
    (hev : Event.clear_results ∉ evs) (hsrc : w.sources = []) : w1.sources = [] := by
  induction evs generalizing w with
  | nil =>
    simp only [run, Option.some.injEq] at hr
    subst hr
    exact hsrc
  | cons ev evs ih =>
    simp only [run] at hr
    cases hs : step w ev with
    | none => rw [hs] at hr; cases hr
    | some w2 =>
      rw [hs] at hr
      exact ih w2 hr (fun h => hev (List.mem_cons_of_mem _ h))
        (sources_empty_step ev w w2 hs (fun h => hev (by simp [h])) hsrc)

/-- C19: on a device with driver data, `wifi_disable` returns 0 with both lists empty and
the timer handle 0; it removes the timeout source when the handle was not 0 and releases
each element of `pending` and of `current` once per entry.  In a state reached from a
freshly probed device no timeout source is outstanding afterwards, and none becomes
outstanding over any later notifications without a `clear_results`, so a timer dispatch
there runs nothing. -/
theorem C19_wifi_disable_cancels_and_releases (w : World) (d : wifi_data)
    (hd : w.data = some d) :
    ∃ w1, wifi_disable w = some (0, w1) ∧
      w1.data = some { d with current := [], pending := [], timer := 0 } ∧
      w1.sources = (if d.timer > 0 then w.sources.erase d.timer else w.sources) ∧
      w1.log = w.log ++ (if d.timer > 0 then [Call.source_remove d.timer] else [])
        ++ [Call.supplicant_disconnect element_ref.device]
        ++ unref_calls d.pending ++ unref_calls d.current
        ++ [Call.element_unregister_children element_ref.device,
            Call.supplicant_stop element_ref.device] ∧
      (∀ e, (unref_calls d.pending ++ unref_calls d.current).count (Call.element_unref e) =
        d.pending.count e + d.current.count e) ∧
      (∀ evs w0, freshly_probed w0 → run evs w0 = some w →
        w1.sources = [] ∧
        ∀ later w2, Event.clear_results ∉ later → run later w1 = some w2 →
          w2.sources = [] ∧ ∀ id, timeout_dispatch id w2 = some w2) := by
  refine ⟨_, wifi_disable_eq w d hd, rfl, rfl, rfl, fun e => ?_, fun evs w0 h0 hr => ?_⟩
  · have hcount : ∀ l : List Nat, (unref_calls l).count (Call.element_unref e) = l.count e := by
      intro l
      induction l with
      | nil => rfl
      | cons a l ih =>
        simp only [unref_calls, List.map_cons, List.count_cons] at ih ⊢
        rw [ih]
        by_cases h : a = e <;> simp [h]
    rw [List.count_append, hcount, hcount]
  · obtain ⟨d1, hd1, hsrc⟩ := timer_wf_run evs w0 w (timer_wf_of_freshly_probed w0 h0) hr
    rw [hd] at hd1
    cases hd1
    have hempty : (if d.timer > 0 then w.sources.erase d.timer else w.sources) = [] := by
      rw [hsrc]
      by_cases ht : d.timer = 0
      · simp [ht]
      · have hpos : d.timer > 0 := Nat.pos_of_ne_zero ht
        simp [ht, hpos]
    refine ⟨hempty, fun later w2 hlater hrun => ?_⟩
    have h2 : w2.sources = [] := sources_empty_run later _ w2 hrun hlater hempty
    exact ⟨h2, fun id => by simp [timeout_dispatch, h2]⟩

/-- Witness of C19: `wifi_disable` on the device whose `pending` holds "HomeNet" with timer 1
armed, followed by a timer event and a scan result. -/
theorem C19_wifi_disable_cancels_and_releases_witness :
    run [Event.scan_result HomeNet_result, Event.clear_results] wlan0 = some armed_device ∧
    (∃ w1, wifi_disable armed_device = some (0, w1) ∧
      w1.data = some { armed_data with current := [], pending := [], timer := 0 } ∧
      w1.sources =
        (if armed_data.timer > 0 then armed_device.sources.erase armed_data.timer
         else armed_device.sources) ∧
      w1.log = armed_device.log ++
          (if armed_data.timer > 0 then [Call.source_remove armed_data.timer] else [])
        ++ [Call.supplicant_disconnect element_ref.device]
        ++ unref_calls armed_data.pending ++ unref_calls armed_data.current
        ++ [Call.element_unregister_children element_ref.device,
            Call.supplicant_stop element_ref.device] ∧
      (∀ e, (unref_calls armed_data.pending ++ unref_calls armed_data.current).count
          (Call.element_unref e) =
        armed_data.pending.count e + armed_data.current.count e) ∧
      (∀ evs w0, freshly_probed w0 → run evs w0 = some armed_device →
        w1.sources = [] ∧
        ∀ later w2, Event.clear_results ∉ later → run later w1 = some w2 →
          w2.sources = [] ∧ ∀ id, timeout_dispatch id w2 = some w2)) :=
  ⟨by decide, C19_wifi_disable_cancels_and_releases armed_device armed_data rfl⟩

/-! ## Connected only with a target -/

theorem state_change_target (state : supplicant_state) (w : World) (d : wifi_data)
    (hd : w.data = some d) :
    ∃ c, (state_change state w).data = some { d with connected := c } ∧
      (c = true → d.connected = true ∨ d.identifier ≠ none) := by
  obtain ⟨target, hi⟩ : ∃ target, d.identifier = target := ⟨_, rfl⟩
  cases target with
  | none =>
    rw [state_change_not_found state w (fun d1 hd1 i hi1 => by
      rw [hd] at hd1; cases hd1; rw [hi] at hi1; cases hi1)]
    exact ⟨d.connected, hd, fun h => Or.inl h⟩
  | some identifier =>
    have hset : d.identifier ≠ none := by rw [hi]; simp
    obtain ⟨c, hc, _⟩ := state_change_frame state w d hd
    exact ⟨c, hc, fun _ => Or.inr hset⟩

theorem network_enable_target (element : Nat) (w w1 : World) (r : Int) (d : wifi_data)
    (h : network_enable element w = some (r, w1)) (hd : w.data = some d) :
    ∃ i, w1.data = some { d with identifier := i } ∧ (d.identifier ≠ none → i ≠ none) := by
  unfold network_enable at h
  cases hE : w.heap[element]? with
  | none => simp [hE] at h
  | some e =>
    cases hN : e.Name with
    | none =>
      simp [hE, hN] at h
      rw [← h.2]
      exact ⟨d.identifier, hd, fun hs => hs⟩
    | some name =>
      cases hS : e.SSID with
      | none =>
        simp [hE, hN, hS] at h
        rw [← h.2]
        exact ⟨d.identifier, hd, fun hs => hs⟩
      | some ssid =>
        cases hP : e.parent with
        | none =>
          simp [hE, hN, hS, hP] at h
          obtain ⟨_, h⟩ := h
          subst h
          exact ⟨d.identifier, hd, fun hs => hs⟩
        | some parent =>
          cases parent with
          | object q => simp [hE, hN, hS, hP] at h
          | device =>
            by_cases hc : d.connected = true
            · simp [hE, hN, hS, hP, hd, hc] at h
              rw [← h.2]
              exact ⟨d.identifier, hd, fun hs => hs⟩
            · simp [hE, hN, hS, hP, hd, hc] at h
              obtain ⟨_, h⟩ := h
              subst h
              exact ⟨some name, by simp at hc; simp [hc], fun _ => by simp⟩

theorem step_target (ev : Event) (w w1 : World) (d : wifi_data) (hs : step w ev = some w1)
    (hd : w.data = some d) :
    ∃ d1, w1.data = some d1 ∧ (d.identifier ≠ none → d1.identifier ≠ none) ∧
      (d1.connected = true → d.connected = true ∨ d1.identifier ≠ none) := by
  cases ev with
  | clear_results =>
    by_cases ht : d.timer = 0
    · simp only [step, clear_results_idle w d hd ht, Option.some.injEq] at hs
      subst hs
      exact ⟨_, rfl, fun h => h, fun h => Or.inl h⟩
    · simp only [step, clear_results_armed w d hd ht, Option.some.injEq] at hs
      subst hs
      exact ⟨_, rfl, fun h => h, fun h => Or.inl h⟩
  | scan_result network =>
    simp only [step, Option.some.injEq] at hs
    subst hs
    obtain ⟨d1, hd1, _, hid, hcon, _, _, _⟩ := scan_result_frame network w d hd
    exact ⟨d1, hd1, fun h => by rw [hid]; exact h, fun h => Or.inl (by rw [← hcon]; exact h)⟩
  | cleanup_pending id =>
    simp only [step, timeout_dispatch, cleanup_pending_eq w d hd] at hs
    by_cases hid : id ∈ w.sources
    · simp only [hid, if_true, Option.some.injEq] at hs
      subst hs
      exact ⟨_, rfl, fun h => h, fun h => Or.inl h⟩
    · simp only [hid, if_false, Option.some.injEq] at hs
      subst hs
      exact ⟨d, hd, fun h => h, fun h => Or.inl h⟩
  | state_change state =>
    simp only [step, Option.some.injEq] at hs
    subst hs
    obtain ⟨c, hc, hwhy⟩ := state_change_target state w d hd
    exact ⟨_, hc, fun h => h, fun h => hwhy h⟩
  | wifi_disable =>
    simp only [step, wifi_disable_eq w d hd, Option.map_some', Option.some.injEq] at hs
    subst hs
    exact ⟨_, rfl, fun h => h, fun h => Or.inl h⟩
  | network_enable element =>
    simp only [step] at hs
    cases hr : network_enable element w with
    | none => rw [hr] at hs; cases hs
    | some r =>
      rw [hr] at hs
      simp only [Option.map_some', Option.some.injEq] at hs
      obtain ⟨i, hi, hkeep⟩ := network_enable_target element w r.2 r.1 d hr hd
      subst hs
      exact ⟨_, hi, hkeep, fun h => Or.inl h⟩

theorem target_wf_run (evs : List Event) (w w1 : World) (h : target_wf w)
    (hr : run evs w = some w1) : target_wf w1 := by
  induction evs generalizing w with
  | nil =>
    simp only [run, Option.some.injEq] at hr
    subst hr
    exact h
  | cons ev evs ih =>
    simp only [run] at hr
    cases hs : step w ev with
    | none => rw [hs] at hr; cases hr
    | some w2 =>
      rw [hs] at hr
      obtain ⟨d, hd, hinv⟩ := h
      obtain ⟨d1, hd1, hkeep, hwhy⟩ := step_target ev w w2 d hs hd
      refine ih w2 ⟨d1, hd1, fun hc => ?_⟩ hr
      rcases hwhy hc with hold | hnew
      · exact hkeep (hinv hold)
      · exact hnew

/-- C20: in every state reached from a freshly probed device by `network_enable`,
`state_change`, `clear_results`, `scan_result`, timer and `wifi_disable` notifications, a
device marked connected has a target identifier; and no notification delivered in such a
state clears a target identifier that is set. -/
theorem C20_connected_has_target (evs : List Event) (w0 w : World) (h0 : freshly_probed w0)
    (hr : run evs w0 = some w) :
    (∃ d, w.data = some d ∧ (d.connected = true → d.identifier ≠ none)) ∧
    (∀ ev w1 d, w.data = some d → d.identifier ≠ none → step w ev = some w1 →
      ∃ d1, w1.data = some d1 ∧ d1.identifier ≠ none) := by
  constructor
  · exact target_wf_run evs w0 w ⟨probed_data, h0.1, by simp [probed_data]⟩ hr
  · intro ev w1 d hd hset hs
    obtain ⟨d1, hd1, hkeep, _⟩ := step_target ev w w1 d hs hd
    exact ⟨d1, hd1, hkeep hset⟩

/-- Witness of C20: the device that connected to "HomeNet" and then began a new cycle. -/
theorem C20_connected_has_target_witness :
    freshly_probed wlan0 ∧ run connected_rescan wlan0 = some connected_rescan_device ∧
    ((∃ d, connected_rescan_device.data = some d ∧
        (d.connected = true → d.identifier ≠ none)) ∧
    (∀ ev w1 d, connected_rescan_device.data = some d → d.identifier ≠ none →
      step connected_rescan_device ev = some w1 →
      ∃ d1, w1.data = some d1 ∧ d1.identifier ≠ none)) :=
  ⟨⟨rfl, rfl⟩, by decide,
    C20_connected_has_target connected_rescan wlan0 connected_rescan_device ⟨rfl, rfl⟩
      (by decide)⟩

end Wifi
